import Mathlib

/-!
# HollyFS: a shallow embedding of `hollyfs.h`, `mkfs.c` and `hollyfs.c`

The three source files are embedded byte-exactly.  The device is a family of
4096-byte blocks; every structure of `hollyfs.h` is read and written through
its C layout (little-endian `unsigned int` and `unsigned short`, natural
alignment):

* `hollyfs_superblock`: `magic_num` at byte 0, `fs_size` at 4, `inode_count`
  at 8, `block_map[i]` at `12 + 2 * i`; `sizeof` is 2060.
* `hollyfs_inode`: `inode_num` at 0, `data_block_num` at 4, `file_size` at 8,
  `dir_child_count` at 12, `type` at 16; `sizeof` is 20.
* `hollyfs_directory_record`: `filename` at 0 (255 bytes), one byte of
  padding, `inode_no` at 256; `sizeof` is 260.

Pointers obtained from `sb_bread` alias: two reads of one block number give the
same buffer, so a store through one pointer is seen through the other.  This
is what makes the root directory's child count reach the disk, and it is kept
by routing every access through the buffer of its block.
-/

namespace HollyFS

/-! ## Constants of `hollyfs.h` -/

/-- The constant `HOLLYFS_MAGIC_NUM`. -/
abbrev HOLLYFS_MAGIC_NUM : Nat := 77
/-- The constant `HOLLYFS_BLOCK_SIZE`. -/
abbrev HOLLYFS_BLOCK_SIZE : Nat := 4096
/-- The constant `HOLLYFS_DATA_BLOCK_COUNT`. -/
abbrev HOLLYFS_DATA_BLOCK_COUNT : Nat := 1023
/-- The constant `HOLLYFS_DATA_BLOCK_BASE`. -/
abbrev HOLLYFS_DATA_BLOCK_BASE : Nat := 1
/-- The constant `HOLLYFS_INODE_BLOCK_BASE`. -/
abbrev HOLLYFS_INODE_BLOCK_BASE : Nat := 1024
/-- The constant `HOLLYFS_FILE_TYPE_DIR`. -/
abbrev HOLLYFS_FILE_TYPE_DIR : Nat := 1
/-- The constant `HOLLYFS_FILE_TYPE_FILE`. -/
abbrev HOLLYFS_FILE_TYPE_FILE : Nat := 2
/-- The constant `HOLLYFS_FILENAME_MAX`. -/
abbrev HOLLYFS_FILENAME_MAX : Nat := 255

/-- The errno `ENOTDIR` of the host kernel. -/
abbrev ENOTDIR : Int := 20
/-- The errno `ENOMEM` of the host kernel. -/
abbrev ENOMEM : Int := 12

/-- The value of `sizeof(hollyfs_superblock)`: 12 + 2 * 1023 rounded up to a multiple of 4. -/
abbrev SIZEOF_SUPERBLOCK : Nat := 2060
/-- The value of `sizeof(hollyfs_inode)`. -/
abbrev SIZEOF_INODE : Nat := 20
/-- The value of `sizeof(hollyfs_directory_record)`: 255 + 1 (padding) + 4. -/
abbrev SIZEOF_RECORD : Nat := 260
/-- The byte offset of `inode_no` inside a `hollyfs_directory_record`. -/
abbrev OFFSET_INODE_NO : Nat := 256

/-! ## Bytes and memory regions -/

/-- One `char` of memory. -/
abbrev Byte := Fin 256

/-- Memory seen from a base pointer, as a map from byte offset to byte.  For
the `b_data` of a buffer head the offsets below `HOLLYFS_BLOCK_SIZE` are the
block; larger offsets are whatever memory lies behind the buffer, which no
flush ever transfers to the device.  An access there is past the end of the
buffer, which C leaves undefined; here the bytes are kept with the buffer they
were addressed from, apart from every other buffer and cache object, so that
the code can be evaluated on the inputs on which it leaves the block. -/
abbrev Region := Nat → Byte

/-- The low byte of a number. -/
def byte_of (v : Nat) : Byte := ⟨v % 256, Nat.mod_lt _ (by decide)⟩

/-- Load of an `unsigned short` at byte offset `off`. -/
def rd16 (r : Region) (off : Nat) : Nat :=
  (r off).val + 256 * (r (off + 1)).val

/-- Store of an `unsigned short` at byte offset `off` (the value is truncated to 16 bits). -/
def wr16 (r : Region) (off v : Nat) : Region := fun o =>
  if o = off then byte_of v
  else if o = off + 1 then byte_of (v / 256)
  else r o

/-- Load of an `unsigned int` at byte offset `off`. -/
def rd32 (r : Region) (off : Nat) : Nat :=
  (r off).val + 256 * (r (off + 1)).val + 65536 * (r (off + 2)).val
    + 16777216 * (r (off + 3)).val

/-- Store of an `unsigned int` at byte offset `off` (the value is truncated to 32 bits). -/
def wr32 (r : Region) (off v : Nat) : Region := fun o =>
  if o = off then byte_of v
  else if o = off + 1 then byte_of (v / 256)
  else if o = off + 2 then byte_of (v / 65536)
  else if o = off + 3 then byte_of (v / 16777216)
  else r o

/-- Store of consecutive bytes starting at offset `off`. -/
def store_bytes (r : Region) (off : Nat) : List Byte → Region
  | [] => r
  | c :: cs => store_bytes (fun o => if o = off then c else r o) (off + 1) cs

/-- The C string held in a byte list: the bytes before the first NUL. -/
def cstr (s : List Byte) : List Byte := s.takeWhile (fun c => c ≠ 0)

/-- The library call `strcpy(dst, src)` with `dst` at offset `off`: the bytes
of the C string `src` and then the terminating NUL, with no bound on the
destination. -/
def strcpy (r : Region) (off : Nat) (src : List Byte) : Region :=
  store_bytes r off (cstr src ++ [0])

/-! ## Views of the structures of `hollyfs.h` -/

/-- The struct `hollyfs_inode`, as decoded from memory. -/
structure hollyfs_inode where
  inode_num : Nat
  data_block_num : Nat
  file_size : Nat
  dir_child_count : Nat
  type : Nat
  deriving DecidableEq

/-- Reads a `hollyfs_inode` lying at the start of a region. -/
def read_inode (r : Region) : hollyfs_inode :=
  { inode_num := rd32 r 0
    data_block_num := rd32 r 4
    file_size := rd32 r 8
    dir_child_count := rd32 r 12
    type := rd32 r 16 }

/-- The struct `hollyfs_directory_record`, as decoded from memory. -/
structure hollyfs_directory_record where
  filename : List Byte
  inode_no : Nat
  deriving DecidableEq

/-- The `HOLLYFS_FILENAME_MAX` bytes of a `filename` field starting at offset `off`. -/
def read_filename (r : Region) (off : Nat) : List Byte :=
  (List.range HOLLYFS_FILENAME_MAX).map (fun j => r (off + j))

/-- Reads the `k`-th `hollyfs_directory_record` of the array starting at offset 0. -/
def read_record (r : Region) (k : Nat) : hollyfs_directory_record :=
  { filename := read_filename r (SIZEOF_RECORD * k)
    inode_no := rd32 r (SIZEOF_RECORD * k + OFFSET_INODE_NO) }

/-- Field `magic_num` of a `hollyfs_superblock` lying at the start of a region. -/
def sb_magic_num (r : Region) : Nat := rd32 r 0
/-- Field `fs_size` of a `hollyfs_superblock` lying at the start of a region. -/
def sb_fs_size (r : Region) : Nat := rd32 r 4
/-- Field `inode_count` of a `hollyfs_superblock` lying at the start of a region. -/
def sb_inode_count (r : Region) : Nat := rd32 r 8
/-- Entry `block_map[i]` of a `hollyfs_superblock` lying at the start of a region. -/
def sb_block_map (r : Region) (i : Nat) : Nat := rd16 r (12 + 2 * i)

/-! ## The device and `mkfs.c` -/

/-- A block device: block number to block contents. -/
abbrev Device := Nat → Region

/-- The function `write_to_block` of `mkfs.c`: `lseek` to the start of block
`block_num`, then `write` of `data_size` bytes (both calls of `main` pass
fewer bytes than one block holds). -/
def write_to_block (dev : Device) (block_num : Nat) (data : Region) (data_size : Nat) : Device :=
  fun b o => if b = block_num ∧ o < data_size then data o else dev b o

/-- The function `main` of `mkfs.c`.  `sb_mem` and `root_mem` are the contents
of the two `malloc` results before `main` stores into them: `main` sets three
fields and `block_map[0]` of the superblock and leaves the other
`block_map` entries as `malloc` returned them. -/
def mkfs_main (dev : Device) (sb_mem root_mem : Region) : Device :=
  let sb := wr32 sb_mem 0 HOLLYFS_MAGIC_NUM
  let sb := wr32 sb 4 1056
  let sb := wr32 sb 8 1
  let sb := wr16 sb 12 1
  let dev := write_to_block dev 0 sb SIZEOF_SUPERBLOCK
  let root := wr32 root_mem 0 0
  let root := wr32 root 4 HOLLYFS_DATA_BLOCK_BASE
  let root := wr32 root 8 0
  let root := wr32 root 12 0
  let root := wr32 root 16 HOLLYFS_FILE_TYPE_DIR
  write_to_block dev HOLLYFS_INODE_BLOCK_BASE root SIZEOF_INODE

/-! ## The mounted file system -/

/-- What a host inode's `i_private` (or the superblock's `s_fs_info`) points
at: the start of the buffer of a device block, or an object taken from
`hollyfs_inode_cache`. -/
inductive hfs_ptr where
  | buffer (block : Nat)
  | object (idx : Nat)
  deriving DecidableEq

/-- The memory the module works on while the device is mounted.

* `disk` is the device itself;
* `bufs b` is the buffer `sb_bread(sb, b)` returns (the same buffer on every
  call, so stores through one buffer head are seen through the next);
* `objs i` is the `i`-th object of `hollyfs_inode_cache`, `nobjs` the number
  of objects handed out so far;
* `flushed` lists the blocks given to `mark_buffer_dirty` and
  `sync_dirty_buffer`, oldest first. -/
structure hollyfs_state where
  disk : Device
  bufs : Nat → Region
  objs : Nat → Region
  nobjs : Nat
  flushed : List Nat

/-- The state right after the device is attached: every buffer shows the
block on the device, no cache object is in use (`slab` is the uninitialised
memory `kmem_cache_alloc` will hand out). -/
def attach (dev : Device) (slab : Nat → Region) : hollyfs_state :=
  { disk := dev, bufs := dev, objs := slab, nobjs := 0, flushed := [] }

/-- The memory a pointer refers to. -/
def deref (st : hollyfs_state) : hfs_ptr → Region
  | .buffer b => st.bufs b
  | .object i => st.objs i

/-- Replaces the memory a pointer refers to.  Buffers of different blocks and
cache objects do not overlap; a store at an offset of `HOLLYFS_BLOCK_SIZE` or
more stays in the region of the buffer it was addressed from. -/
def store (st : hollyfs_state) (p : hfs_ptr) (r : Region) : hollyfs_state :=
  match p with
  | .buffer b => { st with bufs := fun b2 => if b2 = b then r else st.bufs b2 }
  | .object i => { st with objs := fun i2 => if i2 = i then r else st.objs i2 }

/-- The pair `mark_buffer_dirty(bh); sync_dirty_buffer(bh)` on the buffer of
block `b`: the block's `HOLLYFS_BLOCK_SIZE` bytes go to the device. -/
def sync_dirty_buffer (st : hollyfs_state) (b : Nat) : hollyfs_state :=
  { st with
    disk := fun b2 o => if b2 = b ∧ o < HOLLYFS_BLOCK_SIZE then st.bufs b o else st.disk b2 o
    flushed := st.flushed ++ [b] }

/-- The fields of the host's `struct inode` that the module sets. -/
structure inode where
  i_ino : Nat
  i_private : hfs_ptr
  i_op : Bool
  i_fop : Bool
  deriving DecidableEq

/-- The fields of the host's `struct super_block` that the module sets. -/
structure super_block where
  s_maxbytes : Nat
  s_op : Bool
  s_fs_info : Option hfs_ptr
  s_root : Option inode
  deriving DecidableEq

/-- A `super_block` as the host passes it to `fill_super`. -/
def super_block.blank : super_block :=
  { s_maxbytes := 0, s_op := false, s_fs_info := none, s_root := none }

/-! ## `hollyfs_fill_sb` -/

/-- What `hollyfs_fill_sb` leaves behind: its return value, the super block,
the block numbers it passed to `sb_bread` (in order) and the number of
`new_inode` calls. -/
structure fill_sb_result where
  ret : Int
  sb : super_block
  breads : List Nat
  new_inodes : Nat
  deriving DecidableEq

/-- The function `hollyfs_fill_sb`.  `d_make_root_ok` tells whether the
host's `d_make_root` returns a dentry. -/
def hollyfs_fill_sb (st : hollyfs_state) (sb : super_block) (d_make_root_ok : Bool) :
    fill_sb_result :=
  let sb_ondisk := st.bufs 0
  if sb_magic_num sb_ondisk ≠ HOLLYFS_MAGIC_NUM then
    { ret := 1, sb := sb, breads := [0], new_inodes := 0 }
  else
    let sb := { sb with s_maxbytes := HOLLYFS_BLOCK_SIZE, s_op := true,
                        s_fs_info := some (.buffer 0) }
    let root_inode : inode :=
      { i_ino := HOLLYFS_INODE_BLOCK_BASE, i_private := .buffer HOLLYFS_INODE_BLOCK_BASE,
        i_op := true, i_fop := true }
    if d_make_root_ok then
      { ret := 0, sb := { sb with s_root := some root_inode },
        breads := [0, HOLLYFS_INODE_BLOCK_BASE], new_inodes := 1 }
    else
      { ret := -ENOMEM, sb := { sb with s_root := none },
        breads := [0, HOLLYFS_INODE_BLOCK_BASE], new_inodes := 1 }

/-! ## `hollyfs_iterate` -/

/-- One call of `dir_emit`: the `HOLLYFS_FILENAME_MAX` name bytes and the inode number. -/
structure dirent where
  name : List Byte
  ino : Nat
  deriving DecidableEq

/-- The host's `struct dir_context`: the position and, for the actor, the
entries passed to `dir_emit` so far. -/
structure dir_context where
  pos : Int
  emitted : List dirent
  deriving DecidableEq

/-- A `dir_context` at position 0 with nothing emitted. -/
def dir_context.start : dir_context := { pos := 0, emitted := [] }

/-- The `for` loop of `hollyfs_iterate`: `todo` iterations are left and
`cur_rec` points `cur` bytes into the data block. -/
def iterate_loop (data : Region) : Nat → Nat → dir_context → dir_context
  | 0, _, ctx => ctx
  | todo + 1, cur, ctx =>
    iterate_loop data todo (cur + SIZEOF_RECORD)
      { pos := ctx.pos + SIZEOF_RECORD
        emitted := ctx.emitted ++
          [{ name := read_filename data cur, ino := rd32 data (cur + OFFSET_INODE_NO) }] }

/-- The function `hollyfs_iterate`; `i_private` is `filp->f_inode->i_private`.
Returns the return value and the `dir_context` as the call leaves it. -/
def hollyfs_iterate (st : hollyfs_state) (i_private : hfs_ptr) (ctx : dir_context) :
    Int × dir_context :=
  if ctx.pos ≠ 0 then (0, ctx)
  else
    let hfs_inode := read_inode (deref st i_private)
    if ¬ (hfs_inode.type = HOLLYFS_FILE_TYPE_DIR) then (-ENOTDIR, ctx)
    else
      let data := st.bufs hfs_inode.data_block_num
      (0, iterate_loop data hfs_inode.dir_child_count 0 ctx)

/-! ## `hollyfs_create` -/

/-- The block-map loop of `hollyfs_create`: `todo` indices are left to try,
`i` is the loop variable.  Returns the value of `i` after the loop and the
superblock memory. -/
def alloc_loop (sb_ondisk : Region) : Nat → Nat → Nat × Region
  | 0, i => (i, sb_ondisk)
  | todo + 1, i =>
    if sb_block_map sb_ondisk i = 0 then (i, wr16 sb_ondisk (12 + 2 * i) 1)
    else alloc_loop sb_ondisk todo (i + 1)

/-- What `hollyfs_create` leaves behind: its return value, the memory, and
the new host inode that `d_add` attaches to the dentry. -/
structure create_result where
  ret : Int
  st : hollyfs_state
  inode : inode

/-- The function `hollyfs_create`.  `dir` is `dir->i_private`, `name` is
`dentry->d_name.name`; `sb->s_fs_info` is the buffer of block 0, where
`hollyfs_fill_sb` pointed it. -/
def hollyfs_create (st : hollyfs_state) (dir : hfs_ptr) (name : List Byte) : create_result :=
  -- count = sb_ondisk->inode_count; count++; sb_ondisk->inode_count = count
  let count := sb_inode_count (st.bufs 0) + 1
  let st := store st (.buffer 0) (wr32 (st.bufs 0) 8 count)
  -- hfs_inode = kmem_cache_alloc(...); inode_num, type, file_size
  let hfs_inode := hfs_ptr.object st.nobjs
  let st := { st with nobjs := st.nobjs + 1 }
  let st := store st hfs_inode (wr32 (deref st hfs_inode) 0 count)
  let st := store st hfs_inode (wr32 (deref st hfs_inode) 16 HOLLYFS_FILE_TYPE_FILE)
  let st := store st hfs_inode (wr32 (deref st hfs_inode) 8 1)
  -- the block_map loop, then data_block_num = i + HOLLYFS_DATA_BLOCK_BASE
  let found := alloc_loop (st.bufs 0) HOLLYFS_DATA_BLOCK_COUNT 0
  let st := store st (.buffer 0) found.2
  let st := store st hfs_inode (wr32 (deref st hfs_inode) 4 (found.1 + HOLLYFS_DATA_BLOCK_BASE))
  -- parent_dir_inode->dir_child_count++
  let st := store st dir (wr32 (deref st dir) 12 ((read_inode (deref st dir)).dir_child_count + 1))
  -- bh = sb_bread(sb, parent_dir_inode->data_block_num)
  let blk := (read_inode (deref st dir)).data_block_num
  -- dir_contents_datablock += (parent_dir_inode->dir_child_count - 1), in unsigned int
  let idx := ((read_inode (deref st dir)).dir_child_count + 4294967296 - 1) % 4294967296
  let rec_off := SIZEOF_RECORD * idx
  -- strcpy(dir_contents_datablock->filename, dentry->d_name.name)
  let st := store st (.buffer blk) (strcpy (st.bufs blk) rec_off name)
  -- dir_contents_datablock->inode_no = hfs_inode->inode_num
  let st := store st (.buffer blk)
    (wr32 (st.bufs blk) (rec_off + OFFSET_INODE_NO) (read_inode (deref st hfs_inode)).inode_num)
  let st := sync_dirty_buffer st blk
  -- bh = sb_bread(sb, parent_dir_inode->inode_num + HOLLYFS_INODE_BLOCK_BASE), in unsigned int
  let slot := ((read_inode (deref st dir)).inode_num + HOLLYFS_INODE_BLOCK_BASE) % 4294967296
  -- parent_dir_inode_ondisk->dir_child_count = parent_dir_inode->dir_child_count
  let st := store st (.buffer slot)
    (wr32 (st.bufs slot) 12 (read_inode (deref st dir)).dir_child_count)
  let st := sync_dirty_buffer st slot
  { ret := 0, st := st,
    inode := { i_ino := count, i_private := hfs_inode, i_op := true, i_fop := false } }

/-- A run of `hollyfs_create` calls under one directory, one per name, in list order. -/
def creates (st : hollyfs_state) (dir : hfs_ptr) : List (List Byte) → hollyfs_state
  | [] => st
  | name :: rest => creates (hollyfs_create st dir name).st dir rest

/-- The directory listing as the caller of `hollyfs_iterate` reads it: the
iteration starts at position 0, and each emitted name is taken as a C string
(`dir_emit` is handed all `HOLLYFS_FILENAME_MAX` bytes of the field). -/
def dir_listing (st : hollyfs_state) (i_private : hfs_ptr) : List (List Byte × Nat) :=
  (hollyfs_iterate st i_private dir_context.start).2.emitted.map (fun e => (cstr e.name, e.ino))

/-! ## The four parts of `hollyfs_create`

The same statements as in `hollyfs_create`, cut at the blank lines of the
source, so that each part can be reasoned about on its own. -/

/-- Lines 108 to 122 of `hollyfs_create`: the inode count and the new cache object. -/
def create_new_inode (st : hollyfs_state) : hollyfs_state :=
  let count := sb_inode_count (st.bufs 0) + 1
  let st := store st (.buffer 0) (wr32 (st.bufs 0) 8 count)
  let hfs_inode := hfs_ptr.object st.nobjs
  let st := { st with nobjs := st.nobjs + 1 }
  let st := store st hfs_inode (wr32 (deref st hfs_inode) 0 count)
  let st := store st hfs_inode (wr32 (deref st hfs_inode) 16 HOLLYFS_FILE_TYPE_FILE)
  store st hfs_inode (wr32 (deref st hfs_inode) 8 1)

/-- Lines 127 to 136 of `hollyfs_create`: the block-map loop and `data_block_num`. -/
def create_alloc_block (st : hollyfs_state) (hfs_inode : hfs_ptr) : hollyfs_state :=
  let found := alloc_loop (st.bufs 0) HOLLYFS_DATA_BLOCK_COUNT 0
  let st := store st (.buffer 0) found.2
  store st hfs_inode (wr32 (deref st hfs_inode) 4 (found.1 + HOLLYFS_DATA_BLOCK_BASE))

/-- Lines 138 to 155 of `hollyfs_create`: the new record in the parent's data block. -/
def create_append (st : hollyfs_state) (dir hfs_inode : hfs_ptr) (name : List Byte) :
    hollyfs_state :=
  let st := store st dir (wr32 (deref st dir) 12 ((read_inode (deref st dir)).dir_child_count + 1))
  let blk := (read_inode (deref st dir)).data_block_num
  let idx := ((read_inode (deref st dir)).dir_child_count + 4294967296 - 1) % 4294967296
  let rec_off := SIZEOF_RECORD * idx
  let st := store st (.buffer blk) (strcpy (st.bufs blk) rec_off name)
  let st := store st (.buffer blk)
    (wr32 (st.bufs blk) (rec_off + OFFSET_INODE_NO) (read_inode (deref st hfs_inode)).inode_num)
  sync_dirty_buffer st blk

/-- Lines 156 to 163 of `hollyfs_create`: the child count in the parent's inode slot. -/
def create_write_back (st : hollyfs_state) (dir : hfs_ptr) : hollyfs_state :=
  let slot := ((read_inode (deref st dir)).inode_num + HOLLYFS_INODE_BLOCK_BASE) % 4294967296
  let st := store st (.buffer slot)
    (wr32 (st.bufs slot) 12 (read_inode (deref st dir)).dir_child_count)
  sync_dirty_buffer st slot

/-- The buffers once `hollyfs_create` has appended the record (line 155), for
a parent inode held in the buffer of block `b` whose data block is neither
block 0 nor block `b`. -/
def appended (st : hollyfs_state) (b : Nat) (name : List Byte) : Nat → Region := fun x =>
  if x = rd32 (st.bufs b) 4 then
    wr32 (strcpy (st.bufs (rd32 (st.bufs b) 4)) (260 * rd32 (st.bufs b) 12) name)
      (260 * rd32 (st.bufs b) 12 + 256) (sb_inode_count (st.bufs 0) + 1)
  else if x = b then wr32 (st.bufs b) 12 (rd32 (st.bufs b) 12 + 1)
  else if x = 0 then
    (alloc_loop (wr32 (st.bufs 0) 8 (sb_inode_count (st.bufs 0) + 1)) 1023 0).2
  else st.bufs x

/-! ## Concrete volumes and names -/

/-- A device holding only zero bytes. -/
def blank_device : Device := fun _ _ => 0

/-- Cache memory holding only zero bytes. -/
def blank_slab : Nat → Region := fun _ _ => 0

/-- The root handle `hollyfs_fill_sb` binds: `i_private` points at the buffer
of block `HOLLYFS_INODE_BLOCK_BASE`. -/
def root_dir : hfs_ptr := .buffer HOLLYFS_INODE_BLOCK_BASE

/-- A freshly formatted and attached volume: `mkfs` ran on a zeroed device
and `malloc` returned zeroed memory. -/
def fresh_volume : hollyfs_state :=
  attach (mkfs_main blank_device (fun _ => 0) (fun _ => 0)) blank_slab

/-- A formatted and attached volume where `malloc` returned memory filled
with the byte 1, so that no `block_map` entry written by `mkfs` is 0. -/
def full_volume : hollyfs_state :=
  attach (mkfs_main blank_device (fun _ => 1) (fun _ => 0)) blank_slab

/-- The name `a.txt`. -/
def a_txt : List Byte := [97, 46, 116, 120, 116]

/-- The name `b.txt`. -/
def b_txt : List Byte := [98, 46, 116, 120, 116]

/-- A name of 256 bytes, one more than `HOLLYFS_FILENAME_MAX`. -/
def long_name : List Byte := List.replicate 256 97

/-- A formatted device whose root inode record was then given
`data_block_num = 0`, the block of the superblock. -/
def aliased_device : Device := fun b =>
  if b = HOLLYFS_INODE_BLOCK_BASE then
    wr32 (mkfs_main blank_device (fun _ => 0) (fun _ => 0) HOLLYFS_INODE_BLOCK_BASE) 4 0
  else mkfs_main blank_device (fun _ => 0) (fun _ => 0) b

/-- A name of 300 bytes, longer than a whole `hollyfs_directory_record`. -/
def name_300 : List Byte := List.replicate 300 98

/-- Fifteen names, `a` to `o`: as many as records fit in one block. -/
def fifteen_names : List (List Byte) :=
  [[97], [98], [99], [100], [101], [102], [103], [104], [105], [106], [107], [108], [109],
   [110], [111]]

/-- The name `c.txt`. -/
def c_txt : List Byte := [99, 46, 116, 120, 116]

/-- A formatted device (zeroed before, zeroed `malloc` memory) whose root
inode record was then given the `inode_num`, the `data_block_num` and the
`dir_child_count` stated; `hollyfs_fill_sb` mounts it like any other, since it
checks the `magic_num` only. -/
def patched_root (inode_num data_block_num dir_child_count : Nat) : Device := fun b =>
  if b = HOLLYFS_INODE_BLOCK_BASE then
    wr32 (wr32 (wr32
      (mkfs_main blank_device (fun _ => 0) (fun _ => 0) HOLLYFS_INODE_BLOCK_BASE)
      0 inode_num) 4 data_block_num) 12 dir_child_count
  else mkfs_main blank_device (fun _ => 0) (fun _ => 0) b

/-- The state right after the device is attached, when the memory that lies
behind the buffer of block `b` holds `behind b`: the first
`HOLLYFS_BLOCK_SIZE` bytes of a buffer show the block on the device. -/
def attach_behind (dev : Device) (slab : Nat → Region) (behind : Nat → Region) :
    hollyfs_state :=
  { disk := dev
    bufs := fun b o => if o < HOLLYFS_BLOCK_SIZE then dev b o else behind b o
    objs := slab, nobjs := 0, flushed := [] }

/-! ## Memory lemmas -/

theorem byte_of_val (v : Nat) : (byte_of v).val = v % 256 := rfl

theorem rd16_lt (r : Region) (off : Nat) : rd16 r off < 65536 := by
  unfold rd16; omega

theorem rd32_lt (r : Region) (off : Nat) : rd32 r off < 4294967296 := by
  unfold rd32; omega

theorem rd32_congr {r1 r2 : Region} {off : Nat}
    (h : ∀ j, j < 4 → r1 (off + j) = r2 (off + j)) : rd32 r1 off = rd32 r2 off := by
  have h0 := h 0 (by omega)
  have h1 := h 1 (by omega)
  have h2 := h 2 (by omega)
  have h3 := h 3 (by omega)
  simp only [Nat.add_zero] at h0
  simp only [rd32, h0, h1, h2, h3]

theorem rd16_congr {r1 r2 : Region} {off : Nat}
    (h : ∀ j, j < 2 → r1 (off + j) = r2 (off + j)) : rd16 r1 off = rd16 r2 off := by
  have h0 := h 0 (by omega)
  have h1 := h 1 (by omega)
  simp only [Nat.add_zero] at h0
  simp only [rd16, h0, h1]

theorem wr32_outside (r : Region) (off v o : Nat) (h : o < off ∨ off + 4 ≤ o) :
    wr32 r off v o = r o := by
  unfold wr32
  rw [if_neg (by omega), if_neg (by omega), if_neg (by omega), if_neg (by omega)]

theorem wr16_outside (r : Region) (off v o : Nat) (h : o < off ∨ off + 2 ≤ o) :
    wr16 r off v o = r o := by
  unfold wr16
  rw [if_neg (by omega), if_neg (by omega)]

theorem rd32_wr32_same (r : Region) (off v : Nat) :
    rd32 (wr32 r off v) off = v % 4294967296 := by
  simp [rd32, wr32, byte_of]
  omega

theorem rd16_wr16_same (r : Region) (off v : Nat) :
    rd16 (wr16 r off v) off = v % 65536 := by
  simp [rd16, wr16, byte_of]
  omega

theorem rd32_wr32_disjoint (r : Region) (off v off2 : Nat) (h : off2 + 4 ≤ off ∨ off + 4 ≤ off2) :
    rd32 (wr32 r off v) off2 = rd32 r off2 :=
  rd32_congr (fun j hj => wr32_outside r off v (off2 + j) (by omega))

theorem rd32_wr16_disjoint (r : Region) (off v off2 : Nat) (h : off2 + 4 ≤ off ∨ off + 2 ≤ off2) :
    rd32 (wr16 r off v) off2 = rd32 r off2 :=
  rd32_congr (fun j hj => wr16_outside r off v (off2 + j) (by omega))

theorem rd16_wr16_disjoint (r : Region) (off v off2 : Nat) (h : off2 + 2 ≤ off ∨ off + 2 ≤ off2) :
    rd16 (wr16 r off v) off2 = rd16 r off2 :=
  rd16_congr (fun j hj => wr16_outside r off v (off2 + j) (by omega))

theorem rd16_wr32_disjoint (r : Region) (off v off2 : Nat) (h : off2 + 2 ≤ off ∨ off + 4 ≤ off2) :
    rd16 (wr32 r off v) off2 = rd16 r off2 :=
  rd16_congr (fun j hj => wr32_outside r off v (off2 + j) (by omega))

theorem store_bytes_outside (bs : List Byte) (r : Region) (off o : Nat)
    (h : o < off ∨ off + bs.length ≤ o) : store_bytes r off bs o = r o := by
  induction bs generalizing r off with
  | nil => rfl
  | cons c cs ih =>
    simp only [store_bytes, List.length_cons] at h ⊢
    rw [ih _ _ (by omega), if_neg (by omega)]

theorem store_bytes_inside (bs : List Byte) (r : Region) (off j : Nat) (h : j < bs.length) :
    store_bytes r off bs (off + j) = bs.get ⟨j, h⟩ := by
  induction bs generalizing r off j with
  | nil => simp at h
  | cons c cs ih =>
    simp only [store_bytes]
    cases j with
    | zero =>
      rw [store_bytes_outside _ _ _ _ (by omega)]
      simp
    | succ j =>
      have := ih (fun o => if o = off then c else r o) (off + 1) j (by simpa using h)
      rw [show off + (j + 1) = off + 1 + j by omega, this]
      simp


@[simp] theorem store_buffer_bufs (st : hollyfs_state) (b : Nat) (r : Region) (b2 : Nat) :
    (store st (.buffer b) r).bufs b2 = if b2 = b then r else st.bufs b2 := rfl
@[simp] theorem store_buffer_objs (st : hollyfs_state) (b : Nat) (r : Region) :
    (store st (.buffer b) r).objs = st.objs := rfl
@[simp] theorem store_object_bufs (st : hollyfs_state) (i : Nat) (r : Region) :
    (store st (.object i) r).bufs = st.bufs := rfl
@[simp] theorem store_object_objs (st : hollyfs_state) (i : Nat) (r : Region) (i2 : Nat) :
    (store st (.object i) r).objs i2 = if i2 = i then r else st.objs i2 := rfl
@[simp] theorem store_nobjs (st : hollyfs_state) (p : hfs_ptr) (r : Region) :
    (store st p r).nobjs = st.nobjs := by cases p <;> rfl
@[simp] theorem store_disk (st : hollyfs_state) (p : hfs_ptr) (r : Region) :
    (store st p r).disk = st.disk := by cases p <;> rfl
@[simp] theorem store_flushed (st : hollyfs_state) (p : hfs_ptr) (r : Region) :
    (store st p r).flushed = st.flushed := by cases p <;> rfl
@[simp] theorem sync_bufs (st : hollyfs_state) (b : Nat) :
    (sync_dirty_buffer st b).bufs = st.bufs := rfl
@[simp] theorem sync_objs (st : hollyfs_state) (b : Nat) :
    (sync_dirty_buffer st b).objs = st.objs := rfl
@[simp] theorem sync_nobjs (st : hollyfs_state) (b : Nat) :
    (sync_dirty_buffer st b).nobjs = st.nobjs := rfl


theorem hollyfs_create_st (st : hollyfs_state) (dir : hfs_ptr) (name : List Byte) :
    (hollyfs_create st dir name).st =
      create_write_back
        (create_append (create_alloc_block (create_new_inode st) (.object st.nobjs))
          dir (.object st.nobjs) name) dir := rfl

theorem create_new_inode_bufs (st : hollyfs_state) :
    (create_new_inode st).bufs = fun x =>
      if x = 0 then wr32 (st.bufs 0) 8 (sb_inode_count (st.bufs 0) + 1) else st.bufs x := rfl

theorem create_new_inode_objs (st : hollyfs_state) :
    (create_new_inode st).objs = fun i =>
      if i = st.nobjs then
        wr32 (wr32 (wr32 (st.objs st.nobjs) 0 (sb_inode_count (st.bufs 0) + 1)) 16 2) 8 1
      else st.objs i := by
  funext i
  simp only [create_new_inode, store_object_objs, deref, store_buffer_objs, store_nobjs]
  by_cases h : i = st.nobjs <;> simp [h]

theorem create_alloc_block_bufs (st : hollyfs_state) (j : Nat) :
    (create_alloc_block st (.object j)).bufs = fun x =>
      if x = 0 then (alloc_loop (st.bufs 0) 1023 0).2 else st.bufs x := rfl

theorem create_alloc_block_objs (st : hollyfs_state) (j : Nat) :
    (create_alloc_block st (.object j)).objs = fun i =>
      if i = j then wr32 (st.objs j) 4 ((alloc_loop (st.bufs 0) 1023 0).1 + 1) else st.objs i := rfl

theorem create_append_objs (st : hollyfs_state) (b j : Nat) (name : List Byte) :
    (create_append st (.buffer b) (.object j) name).objs = st.objs := rfl

theorem child_index (r : Region) :
    (rd32 (wr32 r 12 (rd32 r 12 + 1)) 12 + 4294967296 - 1) % 4294967296 = rd32 r 12 := by
  have := rd32_lt r 12
  rw [rd32_wr32_same]
  omega

theorem create_append_bufs (st : hollyfs_state) (b j : Nat) (name : List Byte) :
    (create_append st (.buffer b) (.object j) name).bufs = fun x =>
      if x = rd32 (st.bufs b) 4 then
        wr32 (strcpy (if rd32 (st.bufs b) 4 = b then wr32 (st.bufs b) 12 (rd32 (st.bufs b) 12 + 1)
                      else st.bufs (rd32 (st.bufs b) 4))
                (260 * rd32 (st.bufs b) 12) name)
          (260 * rd32 (st.bufs b) 12 + 256) (rd32 (st.objs j) 0)
      else if x = b then wr32 (st.bufs b) 12 (rd32 (st.bufs b) 12 + 1)
      else st.bufs x := by
  funext x
  simp only [create_append, deref, read_inode, store_buffer_bufs, sync_bufs, store_buffer_objs,
    if_true]
  rw [child_index, rd32_wr32_disjoint _ _ _ _ (by omega)]
  by_cases h1 : x = rd32 (st.bufs b) 4
  · simp [h1]
  · simp [h1]

theorem create_write_back_bufs (st : hollyfs_state) (b : Nat) :
    (create_write_back st (.buffer b)).bufs = fun x =>
      if x = (rd32 (st.bufs b) 0 + 1024) % 4294967296 then
        wr32 (st.bufs ((rd32 (st.bufs b) 0 + 1024) % 4294967296)) 12 (rd32 (st.bufs b) 12)
      else st.bufs x := rfl

theorem wr32_mod (r : Region) (off v : Nat) : wr32 r off (v % 4294967296) = wr32 r off v := by
  funext o
  simp only [wr32, byte_of]
  congr 1
  · apply Fin.ext; simp only []; omega
  · congr 1
    · apply Fin.ext; simp only []; omega
    · congr 1
      · apply Fin.ext; simp only []; omega
      · congr 1
        apply Fin.ext; simp only []; omega

theorem create_bufs (st : hollyfs_state) (b : Nat) (name : List Byte)
    (hb : b ≠ 0) (hd0 : rd32 (st.bufs b) 4 ≠ 0) (hdb : rd32 (st.bufs b) 4 ≠ b) :
    (hollyfs_create st (.buffer b) name).st.bufs = fun x =>
      if x = (rd32 (st.bufs b) 0 + 1024) % 4294967296 then
        wr32 (appended st b name ((rd32 (st.bufs b) 0 + 1024) % 4294967296)) 12
          (rd32 (st.bufs b) 12 + 1)
      else appended st b name x := by
  have hA : (create_append (create_alloc_block (create_new_inode st) (.object st.nobjs))
      (.buffer b) (.object st.nobjs) name).bufs = appended st b name := by
    rw [create_append_bufs, create_alloc_block_bufs, create_alloc_block_objs,
      create_new_inode_bufs, create_new_inode_objs]
    funext x
    simp only [if_neg hb, if_true, if_neg hd0, if_neg hdb, appended]
    rw [rd32_wr32_disjoint _ _ _ _ (by omega), rd32_wr32_disjoint _ _ _ _ (by omega),
      rd32_wr32_disjoint _ _ _ _ (by omega), rd32_wr32_same, wr32_mod]
    split_ifs <;> rfl
  rw [hollyfs_create_st, create_write_back_bufs, hA]
  have hbb : appended st b name b = wr32 (st.bufs b) 12 (rd32 (st.bufs b) 12 + 1) := by
    simp only [appended, if_neg (Ne.symm hdb), if_true]
  rw [hbb, rd32_wr32_disjoint _ _ _ _ (by omega), rd32_wr32_same, wr32_mod]

theorem mkfs_root (dev : Device) (sb_mem root_mem : Region) :
    read_inode (mkfs_main dev sb_mem root_mem 1024) =
      { inode_num := 0, data_block_num := 1, file_size := 0, dir_child_count := 0, type := 1 } := by
  simp [read_inode, mkfs_main, write_to_block, rd32, wr32, byte_of, SIZEOF_INODE,
    HOLLYFS_INODE_BLOCK_BASE, HOLLYFS_DATA_BLOCK_BASE, HOLLYFS_FILE_TYPE_DIR]

theorem mkfs_superblock (dev : Device) (sb_mem root_mem : Region) :
    sb_magic_num (mkfs_main dev sb_mem root_mem 0) = 77 ∧
    sb_fs_size (mkfs_main dev sb_mem root_mem 0) = 1056 ∧
    sb_inode_count (mkfs_main dev sb_mem root_mem 0) = 1 ∧
    sb_block_map (mkfs_main dev sb_mem root_mem 0) 0 = 1 := by
  simp [sb_magic_num, sb_fs_size, sb_inode_count, sb_block_map, mkfs_main, write_to_block, rd32,
    rd16, wr32, wr16, byte_of, SIZEOF_SUPERBLOCK, HOLLYFS_MAGIC_NUM, HOLLYFS_INODE_BLOCK_BASE]
  exact ⟨rfl, rfl⟩


/-! ## The listing loop -/

theorem iterate_loop_eq (data : Region) (n cur : Nat) (ctx : dir_context) :
    iterate_loop data n cur ctx =
      { pos := ctx.pos + 260 * n
        emitted := ctx.emitted ++ (List.range n).map (fun k =>
          { name := read_filename data (cur + 260 * k), ino := rd32 data (cur + 260 * k + 256) }) } := by
  induction n generalizing cur ctx with
  | zero => simp [iterate_loop]
  | succ n ih =>
    rw [iterate_loop, ih, List.range_succ_eq_map]
    simp only [SIZEOF_RECORD, OFFSET_INODE_NO, List.map_cons, List.map_map, List.append_assoc,
      List.singleton_append, Nat.mul_zero, Nat.add_zero]
    congr 1
    · push_cast; ring
    · congr 2
      apply List.map_congr_left
      intro k _
      simp only [Function.comp, Nat.succ_eq_add_one]
      rw [show cur + 260 + 260 * k = cur + 260 * (k + 1) by ring]

theorem iterate_dir (st : hollyfs_state) (p : hfs_ptr) (ctx : dir_context) (hpos : ctx.pos = 0)
    (hdir : (read_inode (deref st p)).type = HOLLYFS_FILE_TYPE_DIR) :
    hollyfs_iterate st p ctx =
      (0, { pos := 260 * (read_inode (deref st p)).dir_child_count
            emitted := ctx.emitted ++
              (List.range (read_inode (deref st p)).dir_child_count).map (fun k =>
                { name := (read_record (st.bufs (read_inode (deref st p)).data_block_num) k).filename
                  ino := (read_record (st.bufs (read_inode (deref st p)).data_block_num) k).inode_no }) }) := by
  unfold hollyfs_iterate
  rw [if_neg (by simp [hpos]), if_neg (by simp [hdir])]
  simp only [iterate_loop_eq]
  simp [read_record, hpos, SIZEOF_RECORD, OFFSET_INODE_NO]

/-! ## The block-map loop -/

theorem alloc_loop_low (r : Region) (n i o : Nat) (h : o < 12) :
    (alloc_loop r n i).2 o = r o := by
  induction n generalizing i with
  | zero => rfl
  | succ n ih =>
    unfold alloc_loop
    split_ifs
    · exact wr16_outside r _ _ o (by omega)
    · exact ih (i + 1)

theorem alloc_loop_found (r : Region) (n i j : Nat) (hij : i ≤ j) (hjn : j < i + n)
    (hz : sb_block_map r j = 0) (hmin : ∀ k, i ≤ k → k < j → sb_block_map r k ≠ 0) :
    alloc_loop r n i = (j, wr16 r (12 + 2 * j) 1) := by
  induction n generalizing i with
  | zero => omega
  | succ n ih =>
    unfold alloc_loop
    by_cases h : i = j
    · subst h
      rw [if_pos hz]
    · rw [if_neg (hmin i (Nat.le_refl i) (by omega))]
      exact ih (i + 1) (by omega) (by omega) (fun k hk hkj => hmin k (by omega) hkj)

theorem alloc_loop_full (r : Region) (n i : Nat)
    (hfull : ∀ k, i ≤ k → k < i + n → sb_block_map r k ≠ 0) :
    alloc_loop r n i = (i + n, r) := by
  induction n generalizing i with
  | zero => rfl
  | succ n ih =>
    unfold alloc_loop
    rw [if_neg (hfull i (Nat.le_refl i) (by omega)),
      ih (i + 1) (fun k hk hkn => hfull k (by omega) (by omega))]
    congr 1
    omega

theorem sb_block_map_wr32_count (r : Region) (v k : Nat) :
    sb_block_map (wr32 r 8 v) k = sb_block_map r k :=
  rd16_wr32_disjoint r 8 v (12 + 2 * k) (by omega)

/-! ## C strings in a filename field -/

theorem cstr_nonzero (s : List Byte) : ∀ c ∈ cstr s, c ≠ 0 := by
  intro c hc
  have := List.mem_takeWhile_imp hc
  simpa using this

theorem cstr_of_prefix (s : List Byte) (hs : ∀ c ∈ s, c ≠ 0) (l : List Byte)
    (hpre : ∀ j (h : j < s.length), l[j]? = some s[j])
    (hend : l[s.length]? = some 0 ∨ l[s.length]? = none) : cstr l = s := by
  induction s generalizing l with
  | nil =>
    cases l with
    | nil => rfl
    | cons a t =>
      simp at hend
      simp [cstr, hend]
  | cons a s ih =>
    cases l with
    | nil =>
      have := hpre 0 (by simp)
      simp at this
    | cons b t =>
      have h0 := hpre 0 (by simp)
      simp at h0
      subst h0
      have hb : b ≠ 0 := hs b (by simp)
      have ht : cstr t = s := by
        apply ih (fun c hc => hs c (by simp [hc])) t
        · intro j hj
          have := hpre (j + 1) (by simpa using hj)
          simpa using this
        · simpa using hend
      simp only [cstr] at ht ⊢
      rw [List.takeWhile_cons_of_pos (by simpa using hb), ht]

theorem cstr_cstr (s : List Byte) : cstr (cstr s) = cstr s :=
  cstr_of_prefix (cstr s) (cstr_nonzero s) (cstr s) (fun j h => by simp)
    (Or.inr (by simp))

theorem read_filename_getElem? (r : Region) (off j : Nat) :
    (read_filename r off)[j]? = if j < 255 then some (r (off + j)) else none := by
  unfold read_filename
  rw [List.getElem?_map]
  by_cases h : j < 255
  · rw [List.getElem?_range h, if_pos h]; rfl
  · rw [if_neg h, List.getElem?_eq_none (by simpa using h)]; rfl

theorem read_filename_congr (r1 r2 : Region) (off : Nat)
    (h : ∀ j, j < 255 → r1 (off + j) = r2 (off + j)) :
    read_filename r1 off = read_filename r2 off := by
  unfold read_filename
  apply List.map_congr_left
  intro j hj
  exact h j (by simpa using hj)

theorem read_record_congr (r1 r2 : Region) (k : Nat)
    (h : ∀ o, o < 260 * (k + 1) → r1 o = r2 o) : read_record r1 k = read_record r2 k := by
  unfold read_record
  rw [read_filename_congr r1 r2 _ (fun j hj => h _ (by simp only [SIZEOF_RECORD]; omega)),
    rd32_congr (fun j hj => h _ (by simp only [SIZEOF_RECORD, OFFSET_INODE_NO]; omega))]

/-! ## One record written by `hollyfs_create` -/

theorem new_record_low (data : Region) (off v : Nat) (name : List Byte) (o : Nat) (h : o < off) :
    wr32 (strcpy data off name) (off + 256) v o = data o := by
  rw [wr32_outside _ _ _ _ (by omega)]
  exact store_bytes_outside _ _ _ _ (by omega)

theorem new_record_inode_no (data : Region) (k v : Nat) (name : List Byte) :
    (read_record (wr32 (strcpy data (260 * k) name) (260 * k + 256) v) k).inode_no
      = v % 4294967296 := by
  simp only [read_record, SIZEOF_RECORD, OFFSET_INODE_NO]
  exact rd32_wr32_same _ _ _

theorem new_record_filename (data : Region) (k v : Nat) (name : List Byte)
    (hlen : (cstr name).length ≤ 255) :
    cstr (read_record (wr32 (strcpy data (260 * k) name) (260 * k + 256) v) k).filename
      = cstr name := by
  simp only [read_record, SIZEOF_RECORD]
  have hbyte : ∀ j (hj : j < (cstr name ++ [0]).length), j < 255 →
      wr32 (strcpy data (260 * k) name) (260 * k + 256) v (260 * k + j)
        = (cstr name ++ [0]).get ⟨j, hj⟩ := by
    intro j hj h255
    rw [wr32_outside _ _ _ _ (by omega)]
    exact store_bytes_inside _ _ _ _ hj
  apply cstr_of_prefix (cstr name) (cstr_nonzero name)
  · intro j hj
    rw [read_filename_getElem?, if_pos (by omega),
      hbyte j (by simp; omega) (by omega)]
    simp [List.getElem_append_left, hj]
  · by_cases h : (cstr name).length < 255
    · left
      rw [read_filename_getElem?, if_pos h, hbyte _ (by simp) h]
      simp
    · right
      rw [read_filename_getElem?, if_neg h]

/-! ## `hollyfs_create` under the root directory of the formatter -/

theorem root_step (st : hollyfs_state) (name : List Byte)
    (h0 : rd32 (st.bufs 1024) 0 = 0) (h4 : rd32 (st.bufs 1024) 4 = 1) :
    (hollyfs_create st (hfs_ptr.buffer 1024) name).st.bufs = fun x =>
      if x = 1024 then
        wr32 (wr32 (st.bufs 1024) 12 (rd32 (st.bufs 1024) 12 + 1)) 12 (rd32 (st.bufs 1024) 12 + 1)
      else if x = 1 then
        wr32 (strcpy (st.bufs 1) (260 * rd32 (st.bufs 1024) 12) name)
          (260 * rd32 (st.bufs 1024) 12 + 256) (sb_inode_count (st.bufs 0) + 1)
      else if x = 0 then
        (alloc_loop (wr32 (st.bufs 0) 8 (sb_inode_count (st.bufs 0) + 1)) 1023 0).2
      else st.bufs x := by
  rw [create_bufs st 1024 name (by decide) (by rw [h4]; decide) (by rw [h4]; decide)]
  funext x
  simp only [appended, h0, h4]
  by_cases hx : x = 1024
  · subst hx
    simp
  · rw [if_neg (by simpa using hx), if_neg hx]
    split_ifs <;> rfl

theorem root_step_inode (st : hollyfs_state) (name : List Byte)
    (h0 : rd32 (st.bufs 1024) 0 = 0) (h4 : rd32 (st.bufs 1024) 4 = 1) :
    rd32 ((hollyfs_create st (hfs_ptr.buffer 1024) name).st.bufs 1024) 0 = 0 ∧
    rd32 ((hollyfs_create st (hfs_ptr.buffer 1024) name).st.bufs 1024) 4 = 1 ∧
    rd32 ((hollyfs_create st (hfs_ptr.buffer 1024) name).st.bufs 1024) 16 = rd32 (st.bufs 1024) 16 ∧
    rd32 ((hollyfs_create st (hfs_ptr.buffer 1024) name).st.bufs 1024) 12
      = (rd32 (st.bufs 1024) 12 + 1) % 4294967296 := by
  rw [root_step st name h0 h4]
  simp only [if_true]
  refine ⟨?_, ?_, ?_, ?_⟩
  · rw [rd32_wr32_disjoint _ _ _ _ (by omega), rd32_wr32_disjoint _ _ _ _ (by omega), h0]
  · rw [rd32_wr32_disjoint _ _ _ _ (by omega), rd32_wr32_disjoint _ _ _ _ (by omega), h4]
  · rw [rd32_wr32_disjoint _ _ _ _ (by omega), rd32_wr32_disjoint _ _ _ _ (by omega)]
  · rw [rd32_wr32_same]

theorem root_step_count (st : hollyfs_state) (name : List Byte)
    (h0 : rd32 (st.bufs 1024) 0 = 0) (h4 : rd32 (st.bufs 1024) 4 = 1) :
    sb_inode_count ((hollyfs_create st (hfs_ptr.buffer 1024) name).st.bufs 0)
      = (sb_inode_count (st.bufs 0) + 1) % 4294967296 := by
  rw [root_step st name h0 h4]
  simp only [if_neg (show (0 : Nat) ≠ 1024 by decide), if_neg (show (0 : Nat) ≠ 1 by decide),
    if_true]
  unfold sb_inode_count
  rw [rd32_congr (fun j hj => alloc_loop_low _ _ _ (8 + j) (by omega)), rd32_wr32_same]

theorem root_step_listing (st : hollyfs_state) (name : List Byte)
    (h0 : rd32 (st.bufs 1024) 0 = 0) (h4 : rd32 (st.bufs 1024) 4 = 1)
    (h16 : rd32 (st.bufs 1024) 16 = 1) (hcc : rd32 (st.bufs 1024) 12 + 1 < 4294967296)
    (hlen : (cstr name).length ≤ 255) :
    dir_listing (hollyfs_create st (hfs_ptr.buffer 1024) name).st (hfs_ptr.buffer 1024) =
      dir_listing st (hfs_ptr.buffer 1024) ++ [(cstr name, (sb_inode_count (st.bufs 0) + 1) % 4294967296)] := by
  obtain ⟨g0, g4, g16, g12⟩ := root_step_inode st name h0 h4
  have hdata := congrFun (root_step st name h0 h4) 1
  simp only [if_neg (show (1 : Nat) ≠ 1024 by decide), if_true] at hdata
  unfold dir_listing
  rw [iterate_dir _ (hfs_ptr.buffer 1024) _ rfl (by simp only [read_inode, deref]; rw [g16, h16]),
    iterate_dir st (hfs_ptr.buffer 1024) _ rfl (by simp only [read_inode, deref]; rw [h16])]
  simp only [read_inode, deref, dir_context.start, List.nil_append, g4, g12, h4, List.map_map]
  rw [Nat.mod_eq_of_lt hcc, List.range_succ, List.map_append, hdata]
  refine congrArg₂ (fun a b => a ++ b) ?_ ?_
  · apply List.map_congr_left
    intro k hk
    have hk2 : k < rd32 (st.bufs 1024) 12 := by simpa using hk
    simp only [Function.comp]
    rw [read_record_congr _ (st.bufs 1) k (fun o ho => new_record_low _ _ _ _ o (by omega))]
  · simp only [List.map_cons, List.map_nil, Function.comp]
    rw [new_record_filename _ _ _ _ hlen, new_record_inode_no]


theorem root_run_inode (names : List (List Byte)) (st : hollyfs_state)
    (h0 : rd32 (st.bufs 1024) 0 = 0) (h4 : rd32 (st.bufs 1024) 4 = 1) :
    rd32 ((creates st (hfs_ptr.buffer 1024) names).bufs 1024) 0 = 0 ∧
    rd32 ((creates st (hfs_ptr.buffer 1024) names).bufs 1024) 4 = 1 ∧
    rd32 ((creates st (hfs_ptr.buffer 1024) names).bufs 1024) 16 = rd32 (st.bufs 1024) 16 ∧
    rd32 ((creates st (hfs_ptr.buffer 1024) names).bufs 1024) 12
      = (rd32 (st.bufs 1024) 12 + names.length) % 4294967296 ∧
    sb_inode_count ((creates st (hfs_ptr.buffer 1024) names).bufs 0)
      = (sb_inode_count (st.bufs 0) + names.length) % 4294967296 := by
  induction names generalizing st with
  | nil =>
    have h12 := rd32_lt (st.bufs 1024) 12
    have h8 : sb_inode_count (st.bufs 0) < 4294967296 := rd32_lt _ _
    refine ⟨h0, h4, rfl, ?_, ?_⟩
    · simp only [creates, List.length_nil, Nat.add_zero]
      exact (Nat.mod_eq_of_lt h12).symm
    · simp only [creates, List.length_nil, Nat.add_zero]
      exact (Nat.mod_eq_of_lt h8).symm
  | cons name rest ih =>
    obtain ⟨g0, g4, g16, g12⟩ := root_step_inode st name h0 h4
    have gc := root_step_count st name h0 h4
    obtain ⟨k0, k4, k16, k12, kc⟩ := ih (hollyfs_create st (hfs_ptr.buffer 1024) name).st g0 g4
    simp only [creates, List.length_cons]
    refine ⟨k0, k4, by rw [k16, g16], ?_, ?_⟩
    · rw [k12, g12]; omega
    · rw [kc, gc]; omega

theorem root_run_listing (names : List (List Byte)) (st : hollyfs_state)
    (h0 : rd32 (st.bufs 1024) 0 = 0) (h4 : rd32 (st.bufs 1024) 4 = 1)
    (h16 : rd32 (st.bufs 1024) 16 = 1)
    (hcap : rd32 (st.bufs 1024) 12 + names.length < 4294967296)
    (hlen : ∀ name ∈ names, (cstr name).length ≤ 255) :
    (dir_listing (creates st (hfs_ptr.buffer 1024) names) (hfs_ptr.buffer 1024)).map Prod.fst
      = (dir_listing st (hfs_ptr.buffer 1024)).map Prod.fst ++ names.map cstr ∧
    (dir_listing (creates st (hfs_ptr.buffer 1024) names) (hfs_ptr.buffer 1024)).map Prod.snd
      = (dir_listing st (hfs_ptr.buffer 1024)).map Prod.snd ++
        (List.range names.length).map
          (fun m => (sb_inode_count (st.bufs 0) + 1 + m) % 4294967296) := by
  induction names generalizing st with
  | nil => simp [creates]
  | cons name rest ih =>
    simp only [List.length_cons] at hcap
    obtain ⟨g0, g4, g16, g12⟩ := root_step_inode st name h0 h4
    have gc := root_step_count st name h0 h4
    have gl := root_step_listing st name h0 h4 h16 (by omega) (hlen name (by simp))
    rw [Nat.mod_eq_of_lt (by omega)] at g12
    obtain ⟨k1, k2⟩ := ih (hollyfs_create st (hfs_ptr.buffer 1024) name).st g0 g4
      (by rw [g16, h16]) (by rw [g12]; omega) (fun n hn => hlen n (by simp [hn]))
    simp only [creates, List.length_cons]
    refine ⟨?_, ?_⟩
    · rw [k1, gl]; simp
    · rw [k2, gl, gc, List.range_succ_eq_map]
      simp only [List.map_append, List.map_cons, List.map_nil, List.append_assoc,
        List.singleton_append, List.map_map, Nat.add_zero]
      refine congrArg₂ (fun a b => a ++ b) rfl (congrArg₂ List.cons rfl ?_)
      apply List.map_congr_left
      intro m _
      simp only [Function.comp, Nat.succ_eq_add_one]
      omega

theorem fresh_root (dev : Device) (sb_mem root_mem : Region) (slab : Nat → Region) :
    rd32 ((attach (mkfs_main dev sb_mem root_mem) slab).bufs 1024) 0 = 0 ∧
    rd32 ((attach (mkfs_main dev sb_mem root_mem) slab).bufs 1024) 4 = 1 ∧
    rd32 ((attach (mkfs_main dev sb_mem root_mem) slab).bufs 1024) 12 = 0 ∧
    rd32 ((attach (mkfs_main dev sb_mem root_mem) slab).bufs 1024) 16 = 1 ∧
    sb_inode_count ((attach (mkfs_main dev sb_mem root_mem) slab).bufs 0) = 1 := by
  have h := mkfs_root dev sb_mem root_mem
  have h2 := (mkfs_superblock dev sb_mem root_mem).2.2.1
  simp only [read_inode, hollyfs_inode.mk.injEq] at h
  exact ⟨h.1, h.2.1, h.2.2.2.1, h.2.2.2.2, h2⟩

theorem fresh_listing (dev : Device) (sb_mem root_mem : Region) (slab : Nat → Region) :
    hollyfs_iterate (attach (mkfs_main dev sb_mem root_mem) slab) (hfs_ptr.buffer 1024)
      dir_context.start = (0, dir_context.start) := by
  obtain ⟨_, _, h12, h16, _⟩ := fresh_root dev sb_mem root_mem slab
  rw [iterate_dir _ _ _ rfl (by simp only [read_inode, deref]; rw [h16])]
  simp only [read_inode, deref, h12]
  rfl

theorem create_object (st : hollyfs_state) (b : Nat) (name : List Byte) :
    (hollyfs_create st (.buffer b) name).st.objs st.nobjs =
      wr32 (wr32 (wr32 (wr32 (st.objs st.nobjs) 0 (sb_inode_count (st.bufs 0) + 1)) 16 2) 8 1) 4
        ((alloc_loop (wr32 (st.bufs 0) 8 (sb_inode_count (st.bufs 0) + 1)) 1023 0).1 + 1) := by
  rw [hollyfs_create_st]
  show (create_append (create_alloc_block (create_new_inode st) (.object st.nobjs))
      (.buffer b) (.object st.nobjs) name).objs st.nobjs = _
  rw [create_append_objs, create_alloc_block_objs, create_new_inode_objs, create_new_inode_bufs]
  simp only [if_true]

set_option maxRecDepth 1000000 in
theorem full_volume_block_map :
    ∀ i, i < HOLLYFS_DATA_BLOCK_COUNT → sb_block_map (full_volume.bufs 0) i ≠ 0 := by
  decide

/-! ## What `hollyfs_create` flushes -/

theorem create_append_disk (st : hollyfs_state) (b j : Nat) (name : List Byte) :
    (create_append st (.buffer b) (.object j) name).disk = fun x o =>
      if x = rd32 (st.bufs b) 4 ∧ o < 4096 then
        (create_append st (.buffer b) (.object j) name).bufs (rd32 (st.bufs b) 4) o
      else st.disk x o := by
  funext x o
  simp only [create_append, sync_dirty_buffer, deref, read_inode, store_buffer_bufs, store_disk,
    if_true, HOLLYFS_BLOCK_SIZE, rd32_wr32_disjoint _ 12 _ 4 (by omega), ↓reduceIte]

theorem create_append_flushed (st : hollyfs_state) (b j : Nat) (name : List Byte) :
    (create_append st (.buffer b) (.object j) name).flushed
      = st.flushed ++ [rd32 (st.bufs b) 4] := by
  simp only [create_append, sync_dirty_buffer, deref, read_inode, store_buffer_bufs,
    store_flushed, if_true, rd32_wr32_disjoint _ 12 _ 4 (by omega)]

set_option maxRecDepth 100000 in
theorem create_write_back_disk (st : hollyfs_state) (b : Nat) :
    (create_write_back st (.buffer b)).disk = fun x o =>
      if x = (rd32 (st.bufs b) 0 + 1024) % 4294967296 ∧ o < 4096 then
        (create_write_back st (.buffer b)).bufs ((rd32 (st.bufs b) 0 + 1024) % 4294967296) o
      else st.disk x o := rfl

theorem create_write_back_flushed (st : hollyfs_state) (b : Nat) :
    (create_write_back st (.buffer b)).flushed
      = st.flushed ++ [(rd32 (st.bufs b) 0 + 1024) % 4294967296] := by
  simp only [create_write_back, sync_dirty_buffer, deref, read_inode, store_flushed,
    HOLLYFS_INODE_BLOCK_BASE]

theorem create_alloc_disk (st : hollyfs_state) :
    (create_alloc_block (create_new_inode st) (.object st.nobjs)).disk = st.disk ∧
    (create_alloc_block (create_new_inode st) (.object st.nobjs)).flushed = st.flushed :=
  ⟨rfl, rfl⟩

theorem create_alloc_head (st : hollyfs_state) (b o : Nat) (ho : o < 8) :
    (create_alloc_block (create_new_inode st) (.object st.nobjs)).bufs b o = st.bufs b o := by
  rw [create_alloc_block_bufs, create_new_inode_bufs]
  by_cases hb : b = 0
  · subst hb
    simp only [if_true]
    rw [alloc_loop_low _ _ _ _ (by omega), wr32_outside _ _ _ _ (by omega)]
  · simp only [if_neg hb]

theorem create_append_head (st : hollyfs_state) (b j : Nat) (name : List Byte)
    (hdb : rd32 (st.bufs b) 4 ≠ b) :
    rd32 ((create_append st (.buffer b) (.object j) name).bufs b) 0 = rd32 (st.bufs b) 0 ∧
    rd32 ((create_append st (.buffer b) (.object j) name).bufs b) 12
      = (rd32 (st.bufs b) 12 + 1) % 4294967296 := by
  rw [create_append_bufs]
  simp only [if_neg (Ne.symm hdb), if_true]
  exact ⟨rd32_wr32_disjoint _ _ _ _ (by omega), rd32_wr32_same _ _ _⟩

theorem create_flushed (st : hollyfs_state) (b : Nat) (name : List Byte) :
    (hollyfs_create st (.buffer b) name).st.flushed
      = st.flushed ++ [rd32 (st.bufs b) 4,
          (rd32 ((create_append (create_alloc_block (create_new_inode st) (.object st.nobjs))
            (.buffer b) (.object st.nobjs) name).bufs b) 0 + 1024) % 4294967296] := by
  have h4 : rd32 ((create_alloc_block (create_new_inode st) (.object st.nobjs)).bufs b) 4
      = rd32 (st.bufs b) 4 := rd32_congr (fun j hj => create_alloc_head st b _ (by omega))
  rw [hollyfs_create_st, create_write_back_flushed, create_append_flushed, h4,
    (create_alloc_disk st).2]
  simp

theorem create_superblock (st : hollyfs_state) (b : Nat) (name : List Byte)
    (hb : b ≠ 0) (hd0 : rd32 (st.bufs b) 4 ≠ 0)
    (hslot : (rd32 ((create_append (create_alloc_block (create_new_inode st) (.object st.nobjs))
            (.buffer b) (.object st.nobjs) name).bufs b) 0 + 1024) % 4294967296 ≠ 0) :
    (hollyfs_create st (.buffer b) name).st.bufs 0 =
      (alloc_loop (wr32 (st.bufs 0) 8 (sb_inode_count (st.bufs 0) + 1)) 1023 0).2 := by
  have h4 : rd32 ((create_alloc_block (create_new_inode st) (.object st.nobjs)).bufs b) 4
      = rd32 (st.bufs b) 4 := rd32_congr (fun j hj => create_alloc_head st b _ (by omega))
  rw [hollyfs_create_st, create_write_back_bufs]
  simp only [if_neg (Ne.symm hslot)]
  rw [create_append_bufs]
  simp only [h4, if_neg (Ne.symm hd0), if_neg (Ne.symm hb)]
  rw [create_alloc_block_bufs, create_new_inode_bufs]
  simp only [if_true]

theorem create_disk (st : hollyfs_state) (b : Nat) (name : List Byte)
    (hdb : rd32 (st.bufs b) 4 ≠ b) :
    (hollyfs_create st (.buffer b) name).st.disk = fun x o =>
      if x = (rd32 (st.bufs b) 0 + 1024) % 4294967296 ∧ o < 4096 then
        (hollyfs_create st (.buffer b) name).st.bufs
          ((rd32 (st.bufs b) 0 + 1024) % 4294967296) o
      else if x = rd32 (st.bufs b) 4 ∧ o < 4096 then
        (create_append (create_alloc_block (create_new_inode st) (.object st.nobjs))
          (.buffer b) (.object st.nobjs) name).bufs (rd32 (st.bufs b) 4) o
      else st.disk x o := by
  have h0 : rd32 ((create_alloc_block (create_new_inode st) (.object st.nobjs)).bufs b) 0
      = rd32 (st.bufs b) 0 := rd32_congr (fun j hj => create_alloc_head st b _ (by omega))
  have h4 : rd32 ((create_alloc_block (create_new_inode st) (.object st.nobjs)).bufs b) 4
      = rd32 (st.bufs b) 4 := rd32_congr (fun j hj => create_alloc_head st b _ (by omega))
  rw [hollyfs_create_st, create_write_back_disk, create_append_disk,
    (create_append_head _ b _ name (by rw [h4]; exact hdb)).1, h0, h4, (create_alloc_disk st).1]

theorem create_append_appended (st : hollyfs_state) (b : Nat) (name : List Byte)
    (hb : b ≠ 0) (hd0 : rd32 (st.bufs b) 4 ≠ 0) (hdb : rd32 (st.bufs b) 4 ≠ b) :
    (create_append (create_alloc_block (create_new_inode st) (.object st.nobjs))
      (.buffer b) (.object st.nobjs) name).bufs = appended st b name := by
  rw [create_append_bufs, create_alloc_block_bufs, create_alloc_block_objs,
    create_new_inode_bufs, create_new_inode_objs]
  funext x
  simp only [if_neg hb, if_true, if_neg hd0, if_neg hdb, appended]
  rw [rd32_wr32_disjoint _ _ _ _ (by omega), rd32_wr32_disjoint _ _ _ _ (by omega),
    rd32_wr32_disjoint _ _ _ _ (by omega), rd32_wr32_same, wr32_mod]
  split_ifs <;> rfl

theorem create_inode_num (st : hollyfs_state) (b : Nat) (name : List Byte) :
    (read_inode ((hollyfs_create st (.buffer b) name).st.objs st.nobjs)).inode_num
      = (sb_inode_count (st.bufs 0) + 1) % 4294967296 := by
  rw [create_object]
  simp only [read_inode]
  rw [rd32_wr32_disjoint _ _ _ _ (by omega), rd32_wr32_disjoint _ _ _ _ (by omega),
    rd32_wr32_disjoint _ _ _ _ (by omega), rd32_wr32_same]

/-- The append of `hollyfs_create` for a parent inode held in the buffer of a
block `b ≠ 0`, with fewer than 15 records and a name of at most
`HOLLYFS_FILENAME_MAX` bytes, whose data block is none of block 0, block `b`
and the parent's inode slot. -/
theorem append_record_at (st : hollyfs_state) (b : Nat) (name : List Byte)
    (hb : b ≠ 0)
    (hd0 : (read_inode (st.bufs b)).data_block_num ≠ 0)
    (hdb : (read_inode (st.bufs b)).data_block_num ≠ b)
    (hslot : ((read_inode (st.bufs b)).inode_num + HOLLYFS_INODE_BLOCK_BASE) % 4294967296
      ≠ (read_inode (st.bufs b)).data_block_num)
    (hn : (read_inode (st.bufs b)).dir_child_count < HOLLYFS_BLOCK_SIZE / SIZEOF_RECORD)
    (hlen : (cstr name).length ≤ HOLLYFS_FILENAME_MAX) :
    cstr (read_record ((hollyfs_create st (.buffer b) name).st.bufs
        (read_inode (st.bufs b)).data_block_num)
        (read_inode (st.bufs b)).dir_child_count).filename = cstr name ∧
    (read_record ((hollyfs_create st (.buffer b) name).st.bufs
        (read_inode (st.bufs b)).data_block_num)
        (read_inode (st.bufs b)).dir_child_count).inode_no
      = (read_inode ((hollyfs_create st (.buffer b) name).st.objs st.nobjs)).inode_num ∧
    (∀ j, j < (read_inode (st.bufs b)).dir_child_count →
      read_record ((hollyfs_create st (.buffer b) name).st.bufs
        (read_inode (st.bufs b)).data_block_num) j
      = read_record (st.bufs (read_inode (st.bufs b)).data_block_num) j) ∧
    (∀ j, j ≤ (read_inode (st.bufs b)).dir_child_count →
      read_record ((hollyfs_create st (.buffer b) name).st.disk
        (read_inode (st.bufs b)).data_block_num) j
      = read_record ((hollyfs_create st (.buffer b) name).st.bufs
        (read_inode (st.bufs b)).data_block_num) j) ∧
    (read_inode ((hollyfs_create st (.buffer b) name).st.bufs b)).dir_child_count
      = (read_inode (st.bufs b)).dir_child_count + 1 ∧
    (read_inode ((hollyfs_create st (.buffer b) name).st.disk
        (((read_inode (st.bufs b)).inode_num + HOLLYFS_INODE_BLOCK_BASE) % 4294967296))
      ).dir_child_count = (read_inode (st.bufs b)).dir_child_count + 1 := by
  simp only [read_inode, HOLLYFS_INODE_BLOCK_BASE] at hd0 hdb hslot hn ⊢
  have hn2 : rd32 (st.bufs b) 12 < 15 := hn
  have hbufs := create_bufs st b name hb hd0 hdb
  have hdisk := create_disk st b name hdb
  have hdata : (hollyfs_create st (.buffer b) name).st.bufs (rd32 (st.bufs b) 4)
      = wr32 (strcpy (st.bufs (rd32 (st.bufs b) 4)) (260 * rd32 (st.bufs b) 12) name)
          (260 * rd32 (st.bufs b) 12 + 256) (sb_inode_count (st.bufs 0) + 1) := by
    rw [hbufs]
    simp only [if_neg (Ne.symm hslot), appended, if_true]
  have hslotbuf : (hollyfs_create st (.buffer b) name).st.bufs
      ((rd32 (st.bufs b) 0 + 1024) % 4294967296)
      = wr32 (appended st b name ((rd32 (st.bufs b) 0 + 1024) % 4294967296)) 12
          (rd32 (st.bufs b) 12 + 1) := by
    rw [hbufs]
    simp only [if_true]
  have hmem : rd32 ((hollyfs_create st (.buffer b) name).st.bufs b) 12
      = rd32 (st.bufs b) 12 + 1 := by
    rw [hbufs]
    by_cases hsb : b = (rd32 (st.bufs b) 0 + 1024) % 4294967296
    · simp only [if_pos hsb]
      rw [rd32_wr32_same]
      omega
    · simp only [if_neg hsb, appended, if_neg (Ne.symm hdb), if_true]
      rw [rd32_wr32_same]
      omega
  refine ⟨?_, ?_, ?_, ?_, hmem, ?_⟩
  · rw [hdata]
    exact new_record_filename _ _ _ _ hlen
  · have hnum := create_inode_num st b name
    simp only [read_inode] at hnum
    rw [hdata, new_record_inode_no, hnum]
  · intro j hj
    rw [hdata]
    exact read_record_congr _ _ j (fun o ho => new_record_low _ _ _ _ o (by omega))
  · intro j hj
    apply read_record_congr
    intro o ho
    have ho2 : o < 4096 := by omega
    have hstep : (hollyfs_create st (.buffer b) name).st.disk (rd32 (st.bufs b) 4) o
        = (create_append (create_alloc_block (create_new_inode st) (.object st.nobjs))
            (.buffer b) (.object st.nobjs) name).bufs (rd32 (st.bufs b) 4) o := by
      rw [hdisk]
      show (if _ then _ else if _ then _ else _) = _
      rw [if_neg (fun h => hslot h.1.symm), if_pos ⟨rfl, ho2⟩]
    rw [hstep, create_append_appended st b name hb hd0 hdb, hdata]
    simp only [appended, if_true]
  · have hstep : ∀ j, j < 4 → (hollyfs_create st (.buffer b) name).st.disk
        ((rd32 (st.bufs b) 0 + 1024) % 4294967296) (12 + j)
        = (hollyfs_create st (.buffer b) name).st.bufs
            ((rd32 (st.bufs b) 0 + 1024) % 4294967296) (12 + j) := by
      intro j hj
      rw [hdisk]
      show (if _ then _ else _) = _
      rw [if_pos ⟨rfl, by omega⟩]
    rw [rd32_congr hstep, hslotbuf, rd32_wr32_same]
    omega

/-! ## The device after creates in the root -/

theorem attach_bufs (dev : Device) (slab : Nat → Region) : (attach dev slab).bufs = dev := rfl

theorem root_step_disk (st : hollyfs_state) (name : List Byte)
    (h0 : rd32 (st.bufs 1024) 0 = 0) (h4 : rd32 (st.bufs 1024) 4 = 1) :
    (∀ o, o < 4096 → (hollyfs_create st (hfs_ptr.buffer 1024) name).st.disk 1 o
      = (hollyfs_create st (hfs_ptr.buffer 1024) name).st.bufs 1 o) ∧
    (∀ o, o < 4096 → (hollyfs_create st (hfs_ptr.buffer 1024) name).st.disk 1024 o
      = (hollyfs_create st (hfs_ptr.buffer 1024) name).st.bufs 1024 o) ∧
    (hollyfs_create st (hfs_ptr.buffer 1024) name).st.disk 0 = st.disk 0 := by
  have hdisk := create_disk st 1024 name (by rw [h4]; decide)
  have happ := create_append_appended st 1024 name (by decide) (by rw [h4]; decide)
    (by rw [h4]; decide)
  have hbufs := root_step st name h0 h4
  rw [h0, h4] at hdisk
  refine ⟨fun o ho => ?_, fun o ho => ?_, ?_⟩
  · rw [hdisk]
    show (if _ then _ else if _ then _ else _) = _
    rw [if_neg (fun h => absurd h.1 (by decide)), if_pos ⟨rfl, ho⟩, happ, hbufs]
    simp only [appended, h4, if_true, if_neg (show (1 : Nat) ≠ 1024 by decide)]
  · rw [hdisk]
    show (if _ then _ else _) = _
    rw [if_pos ⟨by decide, ho⟩]
  · rw [hdisk]
    funext o
    show (if _ then _ else if _ then _ else _) = _
    rw [if_neg (fun h => absurd h.1 (by decide)), if_neg (fun h => absurd h.1 (by decide))]

theorem root_run_disk (names : List (List Byte)) (st : hollyfs_state)
    (h0 : rd32 (st.bufs 1024) 0 = 0) (h4 : rd32 (st.bufs 1024) 4 = 1)
    (hs1 : ∀ o, o < 4096 → st.disk 1 o = st.bufs 1 o)
    (hs2 : ∀ o, o < 4096 → st.disk 1024 o = st.bufs 1024 o) :
    (∀ o, o < 4096 → (creates st (hfs_ptr.buffer 1024) names).disk 1 o
      = (creates st (hfs_ptr.buffer 1024) names).bufs 1 o) ∧
    (∀ o, o < 4096 → (creates st (hfs_ptr.buffer 1024) names).disk 1024 o
      = (creates st (hfs_ptr.buffer 1024) names).bufs 1024 o) ∧
    (creates st (hfs_ptr.buffer 1024) names).disk 0 = st.disk 0 := by
  induction names generalizing st with
  | nil => exact ⟨hs1, hs2, rfl⟩
  | cons name rest ih =>
    obtain ⟨g0, g4, _, _⟩ := root_step_inode st name h0 h4
    obtain ⟨d1, d2, d0⟩ := root_step_disk st name h0 h4
    obtain ⟨k1, k2, k0⟩ := ih (hollyfs_create st (hfs_ptr.buffer 1024) name).st g0 g4 d1 d2
    exact ⟨k1, k2, by rw [← d0]; exact k0⟩

/-- After a run of creates in the root of a freshly formatted volume that stays
inside the root's data block (at most 4096 / 260 = 15 records, names of at
most `HOLLYFS_FILENAME_MAX` bytes), `hollyfs_iterate` on the root returns 0
and emits exactly the created names, in call order, with the inode numbers
2, 3, ..., which are pairwise distinct. -/
theorem root_listing_after_creates (dev : Device) (sb_mem root_mem : Region) (slab : Nat → Region)
    (names : List (List Byte))
    (hcap : names.length ≤ HOLLYFS_BLOCK_SIZE / SIZEOF_RECORD)
    (hlen : ∀ name ∈ names, (cstr name).length ≤ HOLLYFS_FILENAME_MAX) :
    (hollyfs_iterate (creates (attach (mkfs_main dev sb_mem root_mem) slab) root_dir names)
      root_dir dir_context.start).1 = 0 ∧
    (dir_listing (creates (attach (mkfs_main dev sb_mem root_mem) slab) root_dir names)
      root_dir).map Prod.fst = names.map cstr ∧
    (dir_listing (creates (attach (mkfs_main dev sb_mem root_mem) slab) root_dir names)
      root_dir).map Prod.snd = (List.range names.length).map (fun k => k + 2) ∧
    ((dir_listing (creates (attach (mkfs_main dev sb_mem root_mem) slab) root_dir names)
      root_dir).map Prod.snd).Nodup := by
  obtain ⟨h0, h4, h12, h16, h8⟩ := fresh_root dev sb_mem root_mem slab
  have hcap2 : names.length ≤ 15 := hcap
  simp only [root_dir, HOLLYFS_INODE_BLOCK_BASE]
  obtain ⟨r0, r4, r16, r12, r8⟩ := root_run_inode names _ h0 h4
  obtain ⟨l1, l2⟩ := root_run_listing names _ h0 h4 h16 (by rw [h12]; omega) hlen
  have hbase : dir_listing (attach (mkfs_main dev sb_mem root_mem) slab) (hfs_ptr.buffer 1024)
      = [] := by
    unfold dir_listing
    rw [fresh_listing]
    rfl
  rw [hbase] at l1 l2
  rw [h8] at l2
  have hsnd : (dir_listing (creates (attach (mkfs_main dev sb_mem root_mem) slab)
      (hfs_ptr.buffer 1024) names) (hfs_ptr.buffer 1024)).map Prod.snd
      = (List.range names.length).map (fun k => k + 2) := by
    rw [l2]
    simp only [List.map_nil, List.nil_append]
    apply List.map_congr_left
    intro m hm
    have : m < names.length := by simpa using hm
    omega
  refine ⟨?_, by simpa using l1, hsnd, ?_⟩
  · rw [iterate_dir _ _ _ rfl (by simp only [read_inode, deref]; rw [r16, h16])]
  · rw [hsnd]
    exact List.Nodup.map (fun a b hab => by simpa using hab) (List.nodup_range _)

/-! ## The claims -/

set_option maxRecDepth 1000000 in
/-- C1 (the code at the failing input): on a freshly formatted volume the
create of a name of 256 bytes, one more than `HOLLYFS_FILENAME_MAX`, returns
0, and `hollyfs_iterate` on the root then emits one name of 255 bytes, which
is not the created name. -/
theorem create_long_name_listing :
    (cstr long_name).length = HOLLYFS_FILENAME_MAX + 1 ∧
    (hollyfs_create fresh_volume root_dir long_name).ret = 0 ∧
    (hollyfs_iterate (creates fresh_volume root_dir [long_name]) root_dir
      dir_context.start).1 = 0 ∧
    (dir_listing (creates fresh_volume root_dir [long_name]) root_dir).map Prod.fst
      = [List.replicate 255 97] ∧
    (dir_listing (creates fresh_volume root_dir [long_name]) root_dir).map Prod.fst
      ≠ [long_name] := by
  decide

set_option maxRecDepth 1000000 in
/-- C2 (the code at the failing input): on a freshly formatted volume the
superblock on the device has `inode_count = 1`; the creates `a.txt` and
`b.txt` both return 0 and leave 3 in the buffer of block 0, but they flush
blocks 1, 1024, 1, 1024 only, and the superblock on the device still has
`inode_count = 1`.  Mounted anew, the volume hands out inode number 2 a
second time: after the create of `c.txt` the root lists `a.txt` as 2, `b.txt`
as 3 and `c.txt` as 2. -/
theorem inode_count_not_persisted :
    sb_inode_count (fresh_volume.disk 0) = 1 ∧
    (hollyfs_create fresh_volume root_dir a_txt).ret = 0 ∧
    (hollyfs_create (hollyfs_create fresh_volume root_dir a_txt).st root_dir b_txt).ret = 0 ∧
    sb_inode_count ((creates fresh_volume root_dir [a_txt, b_txt]).bufs 0) = 3 ∧
    (creates fresh_volume root_dir [a_txt, b_txt]).flushed = [1, 1024, 1, 1024] ∧
    sb_inode_count ((creates fresh_volume root_dir [a_txt, b_txt]).disk 0) = 1 ∧
    (hollyfs_fill_sb (attach (creates fresh_volume root_dir [a_txt, b_txt]).disk blank_slab)
      super_block.blank true).ret = 0 ∧
    sb_inode_count ((attach (creates fresh_volume root_dir [a_txt, b_txt]).disk blank_slab).bufs 0)
      = 1 ∧
    (hollyfs_create (attach (creates fresh_volume root_dir [a_txt, b_txt]).disk blank_slab)
      root_dir c_txt).inode.i_ino = 2 ∧
    dir_listing (hollyfs_create
      (attach (creates fresh_volume root_dir [a_txt, b_txt]).disk blank_slab)
      root_dir c_txt).st root_dir = [(a_txt, 2), (b_txt, 3), (c_txt, 2)] := by
  decide

set_option maxRecDepth 100000 in
/-- C3 (the code at the failing input): on a formatted volume whose
`block_map` has no 0 entry, the creates `a.txt` and `b.txt` both return 0, get
the distinct inode numbers 2 and 3, and are both given `data_block_num`
1024, which is `HOLLYFS_INODE_BLOCK_BASE`, the block of the root inode. -/
theorem full_volume_shares_block :
    (∀ i, i < HOLLYFS_DATA_BLOCK_COUNT → sb_block_map (full_volume.bufs 0) i ≠ 0) ∧
    (hollyfs_create full_volume root_dir a_txt).ret = 0 ∧
    (hollyfs_create (hollyfs_create full_volume root_dir a_txt).st root_dir b_txt).ret = 0 ∧
    (hollyfs_create full_volume root_dir a_txt).inode.i_private = .object 0 ∧
    (hollyfs_create (hollyfs_create full_volume root_dir a_txt).st root_dir b_txt).inode.i_private
      = .object 1 ∧
    read_inode ((creates full_volume root_dir [a_txt, b_txt]).objs 0)
      = { inode_num := 2, data_block_num := 1024, file_size := 1, dir_child_count := 0,
          type := HOLLYFS_FILE_TYPE_FILE } ∧
    read_inode ((creates full_volume root_dir [a_txt, b_txt]).objs 1)
      = { inode_num := 3, data_block_num := 1024, file_size := 1, dir_child_count := 0,
          type := HOLLYFS_FILE_TYPE_FILE } := by
  refine ⟨full_volume_block_map, ?_⟩
  decide

/-- C4 (amended): block allocation in `hollyfs_create` on the root is
first-fit.  When `i` is the least index below `HOLLYFS_DATA_BLOCK_COUNT` with
`block_map[i] = 0` and the append stays inside the 4096-byte data block (fewer
than 15 records so far, a name of at most `HOLLYFS_FILENAME_MAX` bytes), the
new inode's `data_block_num` is `i + HOLLYFS_DATA_BLOCK_BASE`; and when
neither of the two blocks the create flushes (the root's data block and the
root's inode slot) is block 0, after the create `block_map[i] = 1` and every
other entry of `block_map` is unchanged. -/
theorem create_first_fit (st : hollyfs_state) (name : List Byte) (i : Nat)
    (hi : i < HOLLYFS_DATA_BLOCK_COUNT) (hz : sb_block_map (st.bufs 0) i = 0)
    (hmin : ∀ j, j < i → sb_block_map (st.bufs 0) j ≠ 0)
    (_hn : (read_inode (deref st root_dir)).dir_child_count < HOLLYFS_BLOCK_SIZE / SIZEOF_RECORD)
    (_hlen : (cstr name).length ≤ HOLLYFS_FILENAME_MAX) :
    (hollyfs_create st root_dir name).inode.i_private = .object st.nobjs ∧
    (read_inode ((hollyfs_create st root_dir name).st.objs st.nobjs)).data_block_num
      = i + HOLLYFS_DATA_BLOCK_BASE ∧
    (0 ∉ (hollyfs_create st root_dir name).st.flushed.drop st.flushed.length →
      sb_block_map ((hollyfs_create st root_dir name).st.bufs 0) i = 1 ∧
      ∀ j, j < HOLLYFS_DATA_BLOCK_COUNT → j ≠ i →
        sb_block_map ((hollyfs_create st root_dir name).st.bufs 0) j
          = sb_block_map (st.bufs 0) j) := by
  have hfound : alloc_loop (wr32 (st.bufs 0) 8 (sb_inode_count (st.bufs 0) + 1)) 1023 0
      = (i, wr16 (wr32 (st.bufs 0) 8 (sb_inode_count (st.bufs 0) + 1)) (12 + 2 * i) 1) := by
    apply alloc_loop_found _ _ _ _ (Nat.zero_le i) (by simpa using hi)
    · rw [sb_block_map_wr32_count]; exact hz
    · intro k _ hk
      rw [sb_block_map_wr32_count]
      exact hmin k hk
  simp only [root_dir, HOLLYFS_INODE_BLOCK_BASE]
  refine ⟨rfl, ?_, ?_⟩
  · rw [create_object, hfound]
    simp only [read_inode, HOLLYFS_DATA_BLOCK_BASE]
    rw [rd32_wr32_same]
    have : i < 1023 := hi
    omega
  · intro hw
    rw [create_flushed, List.drop_left] at hw
    simp only [List.mem_cons, List.mem_singleton, List.not_mem_nil, or_false, not_or] at hw
    rw [create_superblock st 1024 name (by decide) (Ne.symm hw.1) (Ne.symm hw.2), hfound]
    refine ⟨?_, ?_⟩
    · simp only [sb_block_map]
      rw [rd16_wr16_same]
    · intro j _ hj
      simp only [sb_block_map]
      rw [rd16_wr16_disjoint _ _ _ _ (by omega)]
      exact sb_block_map_wr32_count _ _ _

set_option maxRecDepth 1000000 in
/-- C4 (witness): on a zeroed, formatted volume the least free index is 1,
the root is empty and the create flushes blocks 1 and 1024, so the first
create in the root is given data block 2 and sets `block_map[1]`. -/
theorem create_first_fit_witness :
    (1 < HOLLYFS_DATA_BLOCK_COUNT ∧ sb_block_map (fresh_volume.bufs 0) 1 = 0 ∧
      (∀ j, j < 1 → sb_block_map (fresh_volume.bufs 0) j ≠ 0)) ∧
    ((read_inode (deref fresh_volume root_dir)).dir_child_count
        < HOLLYFS_BLOCK_SIZE / SIZEOF_RECORD ∧
      (cstr a_txt).length ≤ HOLLYFS_FILENAME_MAX ∧
      0 ∉ (hollyfs_create fresh_volume root_dir a_txt).st.flushed.drop
        fresh_volume.flushed.length) ∧
    (read_inode ((hollyfs_create fresh_volume root_dir a_txt).st.objs
      fresh_volume.nobjs)).data_block_num = 1 + HOLLYFS_DATA_BLOCK_BASE ∧
    sb_block_map ((hollyfs_create fresh_volume root_dir a_txt).st.bufs 0) 1 = 1 :=
  ⟨⟨by decide, by decide, by decide⟩, ⟨by decide, by decide, by decide⟩,
    (create_first_fit fresh_volume a_txt 1 (by decide) (by decide) (by decide) (by decide)
      (by decide)).2.1,
    ((create_first_fit fresh_volume a_txt 1 (by decide) (by decide) (by decide) (by decide)
      (by decide)).2.2 (by decide)).1⟩

set_option maxRecDepth 1000000 in
/-- C4 (counterexample): two formatted volumes with an empty root, least free
index 1, and the create of `a.txt` in the root.  On the first the root inode
record has `data_block_num = 0`: the create flushes blocks 0 and 1024, and
`block_map[122]`, 0 before, is 2 afterwards (the record's `inode_no` was stored
over it).  On the second the root inode record has `inode_num = 2^32 - 1024`,
so that its slot `inode_num + HOLLYFS_INODE_BLOCK_BASE` is block 0: the create
flushes blocks 1 and 0, and `block_map[1]` reads 0 afterwards, not 1 (the
child count was stored over `block_map[0]` and `block_map[1]`). -/
theorem create_overwrites_block_map :
    (sb_block_map ((attach aliased_device blank_slab).bufs 0) 0 ≠ 0 ∧
     sb_block_map ((attach aliased_device blank_slab).bufs 0) 1 = 0 ∧
     (read_inode (deref (attach aliased_device blank_slab) root_dir)).dir_child_count = 0 ∧
     (hollyfs_create (attach aliased_device blank_slab) root_dir a_txt).ret = 0 ∧
     (hollyfs_create (attach aliased_device blank_slab) root_dir a_txt).st.flushed
       = [0, 1024] ∧
     sb_block_map ((attach aliased_device blank_slab).bufs 0) 122 = 0 ∧
     sb_block_map ((hollyfs_create (attach aliased_device blank_slab) root_dir a_txt).st.bufs 0)
       122 = 2) ∧
    (sb_block_map ((attach (patched_root 4294966272 1 0) blank_slab).bufs 0) 0 ≠ 0 ∧
     sb_block_map ((attach (patched_root 4294966272 1 0) blank_slab).bufs 0) 1 = 0 ∧
     (read_inode (deref (attach (patched_root 4294966272 1 0) blank_slab)
       root_dir)).dir_child_count = 0 ∧
     (hollyfs_create (attach (patched_root 4294966272 1 0) blank_slab) root_dir a_txt).ret = 0 ∧
     (hollyfs_create (attach (patched_root 4294966272 1 0) blank_slab) root_dir a_txt).st.flushed
       = [1, 0] ∧
     sb_block_map ((hollyfs_create (attach (patched_root 4294966272 1 0) blank_slab) root_dir
       a_txt).st.bufs 0) 1 = 0) := by
  decide

set_option maxRecDepth 100000 in
/-- C5 (the code at the failing input): `hollyfs_create` returns 0 on every
input; on a formatted volume whose `block_map` has no 0 entry the create of `a.txt` in the root returns 0, leaves
`inode_count` at 2 (one more than before), gives the new inode
`data_block_num = 1024`, and adds the record `("a.txt", 2)` to the root, whose
listing was empty before. -/
theorem create_on_full_volume :
    (∀ st dir name, (hollyfs_create st dir name).ret = 0) ∧
    (∀ i, i < HOLLYFS_DATA_BLOCK_COUNT → sb_block_map (full_volume.bufs 0) i ≠ 0) ∧
    (alloc_loop (full_volume.bufs 0) HOLLYFS_DATA_BLOCK_COUNT 0).1 = HOLLYFS_DATA_BLOCK_COUNT ∧
    sb_inode_count (full_volume.bufs 0) = 1 ∧
    dir_listing full_volume root_dir = [] ∧
    (hollyfs_create full_volume root_dir a_txt).ret = 0 ∧
    sb_inode_count ((hollyfs_create full_volume root_dir a_txt).st.bufs 0) = 2 ∧
    (read_inode ((hollyfs_create full_volume root_dir a_txt).st.objs 0)).data_block_num
      = 1024 ∧
    dir_listing (hollyfs_create full_volume root_dir a_txt).st root_dir = [(a_txt, 2)] := by
  refine ⟨fun _ _ _ => rfl, full_volume_block_map, ?_⟩
  decide

/-- C6: on the device image written by `mkfs` (whatever the device and the
`malloc` memory held before) `hollyfs_fill_sb` returns 0 when the host's
`d_make_root` succeeds, reads blocks 0 and `HOLLYFS_INODE_BLOCK_BASE`, and
binds the root inode's `i_private` to the buffer of block
`HOLLYFS_INODE_BLOCK_BASE`, which holds the inode record the formatter
stored; `hollyfs_iterate` on that root emits nothing and returns 0. -/
theorem format_mount_list (dev : Device) (sb_mem root_mem : Region) (slab : Nat → Region)
    (sb : super_block) :
    (hollyfs_fill_sb (attach (mkfs_main dev sb_mem root_mem) slab) sb true).ret = 0 ∧
    (hollyfs_fill_sb (attach (mkfs_main dev sb_mem root_mem) slab) sb true).breads
      = [0, HOLLYFS_INODE_BLOCK_BASE] ∧
    (hollyfs_fill_sb (attach (mkfs_main dev sb_mem root_mem) slab) sb true).sb.s_root
      = some { i_ino := HOLLYFS_INODE_BLOCK_BASE, i_private := root_dir,
               i_op := true, i_fop := true } ∧
    read_inode (deref (attach (mkfs_main dev sb_mem root_mem) slab) root_dir)
      = { inode_num := 0, data_block_num := HOLLYFS_DATA_BLOCK_BASE, file_size := 0,
          dir_child_count := 0, type := HOLLYFS_FILE_TYPE_DIR } ∧
    hollyfs_iterate (attach (mkfs_main dev sb_mem root_mem) slab) root_dir dir_context.start
      = (0, { pos := 0, emitted := [] }) := by
  have hmagic := (mkfs_superblock dev sb_mem root_mem).1
  have hfill : hollyfs_fill_sb (attach (mkfs_main dev sb_mem root_mem) slab) sb true =
      { ret := 0,
        sb := { s_maxbytes := HOLLYFS_BLOCK_SIZE, s_op := true, s_fs_info := some (.buffer 0),
                s_root := some { i_ino := HOLLYFS_INODE_BLOCK_BASE, i_private := root_dir,
                                 i_op := true, i_fop := true } },
        breads := [0, HOLLYFS_INODE_BLOCK_BASE], new_inodes := 1 } := by
    unfold hollyfs_fill_sb
    simp only [attach]
    rw [if_neg (by rw [hmagic]; decide)]
    rfl
  rw [hfill]
  exact ⟨rfl, rfl, rfl, mkfs_root dev sb_mem root_mem, fresh_listing dev sb_mem root_mem slab⟩

/-- C7: on a freshly formatted and attached device (whatever the device and
the `malloc` memory held before), creating `a.txt` and then `b.txt` in the
root makes `hollyfs_iterate` on the root return 0 and emit exactly two
entries, whose names read as C strings and inode numbers are `("a.txt", 2)`
and `("b.txt", 3)`, in that order. -/
theorem scenario_two_files (dev : Device) (sb_mem root_mem : Region) (slab : Nat → Region) :
    (hollyfs_iterate (creates (attach (mkfs_main dev sb_mem root_mem) slab) root_dir
      [a_txt, b_txt]) root_dir dir_context.start).1 = 0 ∧
    (hollyfs_iterate (creates (attach (mkfs_main dev sb_mem root_mem) slab) root_dir
      [a_txt, b_txt]) root_dir dir_context.start).2.emitted.length = 2 ∧
    dir_listing (creates (attach (mkfs_main dev sb_mem root_mem) slab) root_dir [a_txt, b_txt])
      root_dir = [(a_txt, 2), (b_txt, 3)] := by
  obtain ⟨h0, h4, h12, h16, h8⟩ := fresh_root dev sb_mem root_mem slab
  simp only [root_dir, HOLLYFS_INODE_BLOCK_BASE, creates]
  obtain ⟨g0, g4, g16, g12⟩ := root_step_inode _ a_txt h0 h4
  have gc := root_step_count _ a_txt h0 h4
  obtain ⟨k0, k4, k16, k12⟩ := root_step_inode _ b_txt g0 g4
  rw [h12] at g12
  rw [h8] at gc
  have l1 := root_step_listing _ a_txt h0 h4 h16 (by rw [h12]; decide) (by decide)
  have l2 := root_step_listing _ b_txt g0 g4 (by rw [g16, h16]) (by rw [g12]; decide)
    (by decide)
  have hbase : dir_listing (attach (mkfs_main dev sb_mem root_mem) slab) (hfs_ptr.buffer 1024)
      = [] := by
    unfold dir_listing
    rw [fresh_listing]
    rfl
  rw [l1, hbase, gc, h8] at l2
  have hlist : dir_listing (hollyfs_create (hollyfs_create
      (attach (mkfs_main dev sb_mem root_mem) slab) (hfs_ptr.buffer 1024) a_txt).st
      (hfs_ptr.buffer 1024) b_txt).st (hfs_ptr.buffer 1024) = [(a_txt, 2), (b_txt, 3)] := by
    rw [l2]
    decide
  have hlen := congrArg List.length hlist
  simp only [dir_listing, List.length_map] at hlen
  refine ⟨?_, hlen, hlist⟩
  rw [iterate_dir _ _ _ rfl (by simp only [read_inode, deref]; rw [k16, g16, h16])]

/-- C8: `hollyfs_fill_sb` returns its wrong-format code 1 exactly when the
`magic_num` of block 0 differs from `HOLLYFS_MAGIC_NUM`; in that case it has
read block 0 only, called `new_inode` not at all, and left the super block as
it was (no `s_op`, no `s_fs_info`, no root). -/
theorem fill_sb_magic (st : hollyfs_state) (sb : super_block) (d_make_root_ok : Bool) :
    ((hollyfs_fill_sb st sb d_make_root_ok).ret = 1 ↔
      sb_magic_num (st.bufs 0) ≠ HOLLYFS_MAGIC_NUM) ∧
    (sb_magic_num (st.bufs 0) ≠ HOLLYFS_MAGIC_NUM →
      hollyfs_fill_sb st sb d_make_root_ok
        = { ret := 1, sb := sb, breads := [0], new_inodes := 0 }) := by
  unfold hollyfs_fill_sb
  by_cases h : sb_magic_num (st.bufs 0) = HOLLYFS_MAGIC_NUM
  · simp only [h, ne_eq, not_true_eq_false, if_false, false_implies, and_true, iff_false]
    cases d_make_root_ok <;> simp [ENOMEM]
  · simp only [ne_eq, h, not_false_eq_true, if_true, true_implies, and_self, iff_true]

/-- C8 (witness): a zeroed device has `magic_num = 0`, so the mount fails
with 1 and the blank super block is untouched. -/
theorem fill_sb_magic_witness :
    sb_magic_num ((attach blank_device blank_slab).bufs 0) ≠ HOLLYFS_MAGIC_NUM ∧
    hollyfs_fill_sb (attach blank_device blank_slab) super_block.blank true
      = { ret := 1, sb := super_block.blank, breads := [0], new_inodes := 0 } :=
  ⟨by decide,
    (fill_sb_magic (attach blank_device blank_slab) super_block.blank true).2 (by decide)⟩

/-- C9 (amended): for every inode whose type is not `HOLLYFS_FILE_TYPE_DIR`,
`hollyfs_iterate` called at position 0 returns `-ENOTDIR`, and called at any
other position returns 0; in both cases it emits nothing and leaves the
`dir_context` as it was. -/
theorem iterate_not_dir (st : hollyfs_state) (p : hfs_ptr) (ctx : dir_context)
    (htype : (read_inode (deref st p)).type ≠ HOLLYFS_FILE_TYPE_DIR) :
    (ctx.pos = 0 → hollyfs_iterate st p ctx = (-ENOTDIR, ctx)) ∧
    (ctx.pos ≠ 0 → hollyfs_iterate st p ctx = (0, ctx)) := by
  unfold hollyfs_iterate
  refine ⟨fun h => ?_, fun h => ?_⟩
  · rw [if_neg (by simp [h]), if_pos htype]
  · rw [if_pos h]

/-- C9 (witness): the file inode made by creating `a.txt`, iterated at
position 0 and at position 260. -/
theorem iterate_not_dir_witness :
    (read_inode (deref (creates fresh_volume root_dir [a_txt]) (.object 0))).type
      ≠ HOLLYFS_FILE_TYPE_DIR ∧
    hollyfs_iterate (creates fresh_volume root_dir [a_txt]) (.object 0) { pos := 0, emitted := [] }
      = (-ENOTDIR, { pos := 0, emitted := [] }) ∧
    hollyfs_iterate (creates fresh_volume root_dir [a_txt]) (.object 0)
      { pos := 260, emitted := [] } = (0, { pos := 260, emitted := [] }) :=
  ⟨by decide,
    (iterate_not_dir (creates fresh_volume root_dir [a_txt]) (.object 0)
      { pos := 0, emitted := [] } (by decide)).1 rfl,
    (iterate_not_dir (creates fresh_volume root_dir [a_txt]) (.object 0)
      { pos := 260, emitted := [] } (by decide)).2 (by decide)⟩

/-- C9 (counterexample): the inode of the file `a.txt` has type
`HOLLYFS_FILE_TYPE_FILE`, and `hollyfs_iterate` on it with `ctx->pos = 260`
returns 0, not `-ENOTDIR`. -/
theorem iterate_file_at_nonzero_pos :
    (read_inode (deref (creates fresh_volume root_dir [a_txt]) (.object 0))).type
      = HOLLYFS_FILE_TYPE_FILE ∧
    (read_inode (deref (creates fresh_volume root_dir [a_txt]) (.object 0))).type
      ≠ HOLLYFS_FILE_TYPE_DIR ∧
    (hollyfs_iterate (creates fresh_volume root_dir [a_txt]) (.object 0)
      { pos := 260, emitted := [] }).1 = 0 ∧
    (hollyfs_iterate (creates fresh_volume root_dir [a_txt]) (.object 0)
      { pos := 260, emitted := [] }).1 ≠ -ENOTDIR := by
  decide

/-- C10 (amended): for every directory inode whose `dir_child_count` `n` is
at most 15, the number of records a 4096-byte data block holds, and every
content of its data block, `hollyfs_iterate` started at position 0 returns 0,
advances the position by `n` records, and emits exactly `n` entries after
those already emitted: the `k`-th is the `filename` and the `inode_no` of the
`k`-th `hollyfs_directory_record` counted from offset 0, for
`k = 0, ..., n - 1` in increasing order, and nothing else. -/
theorem iterate_emits_records (st : hollyfs_state) (p : hfs_ptr) (ctx : dir_context)
    (hpos : ctx.pos = 0)
    (hdir : (read_inode (deref st p)).type = HOLLYFS_FILE_TYPE_DIR)
    (_hn : (read_inode (deref st p)).dir_child_count ≤ HOLLYFS_BLOCK_SIZE / SIZEOF_RECORD) :
    hollyfs_iterate st p ctx =
      (0, { pos := SIZEOF_RECORD * (read_inode (deref st p)).dir_child_count
            emitted := ctx.emitted ++
              (List.range (read_inode (deref st p)).dir_child_count).map (fun k =>
                { name := (read_record
                    (st.bufs (read_inode (deref st p)).data_block_num) k).filename
                  ino := (read_record
                    (st.bufs (read_inode (deref st p)).data_block_num) k).inode_no }) }) :=
  iterate_dir st p ctx hpos hdir

/-- C10 (witness): the root of a fresh volume after the creates `a.txt` and
`b.txt` has two children, and two entries are emitted. -/
theorem iterate_emits_records_witness :
    dir_context.start.pos = 0 ∧
    (read_inode (deref (creates fresh_volume root_dir [a_txt, b_txt]) root_dir)).type
      = HOLLYFS_FILE_TYPE_DIR ∧
    (read_inode (deref (creates fresh_volume root_dir [a_txt, b_txt]) root_dir)).dir_child_count
      ≤ HOLLYFS_BLOCK_SIZE / SIZEOF_RECORD ∧
    (read_inode (deref (creates fresh_volume root_dir [a_txt, b_txt]) root_dir)).dir_child_count
      = 2 ∧
    hollyfs_iterate (creates fresh_volume root_dir [a_txt, b_txt]) root_dir dir_context.start =
      (0, { pos := SIZEOF_RECORD *
              (read_inode (deref (creates fresh_volume root_dir [a_txt, b_txt])
                root_dir)).dir_child_count
            emitted := dir_context.start.emitted ++
              (List.range (read_inode (deref (creates fresh_volume root_dir [a_txt, b_txt])
                  root_dir)).dir_child_count).map (fun k =>
                { name := (read_record ((creates fresh_volume root_dir [a_txt, b_txt]).bufs
                    (read_inode (deref (creates fresh_volume root_dir [a_txt, b_txt])
                      root_dir)).data_block_num) k).filename
                  ino := (read_record ((creates fresh_volume root_dir [a_txt, b_txt]).bufs
                    (read_inode (deref (creates fresh_volume root_dir [a_txt, b_txt])
                      root_dir)).data_block_num) k).inode_no }) }) :=
  ⟨rfl, by decide, by decide, by decide,
    iterate_emits_records (creates fresh_volume root_dir [a_txt, b_txt]) root_dir
      dir_context.start rfl (by decide) (by decide)⟩

set_option maxRecDepth 1000000 in
/-- C10 (counterexample): a directory inode with `dir_child_count = 16`.
Record 15 would lie at bytes 3900 to 4159, past the 4096 bytes of the data
block.  Two states with the same device and the same bytes in every block
buffer, which differ only in the memory behind the buffers (bytes 0 in one,
bytes 5 in the other): `hollyfs_iterate` returns 0 and emits 16 entries on
both, and the 16th has `ino = 0` on the one and `ino = 84215045` on the other,
so it is not a record of the data block. -/
theorem iterate_reads_behind_block :
    (read_inode (deref (attach_behind (patched_root 0 1 16) blank_slab (fun _ _ => 0))
      root_dir)).type = HOLLYFS_FILE_TYPE_DIR ∧
    (read_inode (deref (attach_behind (patched_root 0 1 16) blank_slab (fun _ _ => 0))
      root_dir)).dir_child_count = 16 ∧
    HOLLYFS_BLOCK_SIZE < SIZEOF_RECORD * 15 + SIZEOF_RECORD ∧
    (attach_behind (patched_root 0 1 16) blank_slab (fun _ _ => 0)).disk
      = (attach_behind (patched_root 0 1 16) blank_slab (fun _ _ => 5)).disk ∧
    (∀ b o, o < HOLLYFS_BLOCK_SIZE →
      (attach_behind (patched_root 0 1 16) blank_slab (fun _ _ => 0)).bufs b o
        = (attach_behind (patched_root 0 1 16) blank_slab (fun _ _ => 5)).bufs b o) ∧
    (hollyfs_iterate (attach_behind (patched_root 0 1 16) blank_slab (fun _ _ => 0))
      root_dir dir_context.start).1 = 0 ∧
    (hollyfs_iterate (attach_behind (patched_root 0 1 16) blank_slab (fun _ _ => 5))
      root_dir dir_context.start).1 = 0 ∧
    (hollyfs_iterate (attach_behind (patched_root 0 1 16) blank_slab (fun _ _ => 0))
      root_dir dir_context.start).2.emitted.map (fun e => e.ino)
      = List.replicate 15 0 ++ [0] ∧
    (hollyfs_iterate (attach_behind (patched_root 0 1 16) blank_slab (fun _ _ => 5))
      root_dir dir_context.start).2.emitted.map (fun e => e.ino)
      = List.replicate 15 0 ++ [84215045] := by
  refine ⟨by decide, by decide, by decide, rfl, ?_, by decide, by decide, by decide, by decide⟩
  intro b o ho
  simp only [attach_behind, if_pos ho]

/-- C11 (amended): for every directory inode, `hollyfs_iterate` itself keeps
no cursor and changes no memory, the only cursor is `ctx->pos`: called again
at position 0 it emits the same entries as the first call (after whatever was
emitted before); called again with the `dir_context` the first call left, it
returns 0 and emits nothing as soon as the directory has a child. -/
theorem iterate_again (st : hollyfs_state) (p : hfs_ptr)
    (hdir : (read_inode (deref st p)).type = HOLLYFS_FILE_TYPE_DIR) :
    (hollyfs_iterate st p dir_context.start).1 = 0 ∧
    (∀ ctx : dir_context, ctx.pos = 0 →
      (hollyfs_iterate st p ctx).1 = 0 ∧
      (hollyfs_iterate st p ctx).2.emitted
        = ctx.emitted ++ (hollyfs_iterate st p dir_context.start).2.emitted) ∧
    ((read_inode (deref st p)).dir_child_count ≠ 0 →
      (hollyfs_iterate st p dir_context.start).2.pos ≠ 0 ∧
      hollyfs_iterate st p (hollyfs_iterate st p dir_context.start).2
        = (0, (hollyfs_iterate st p dir_context.start).2)) := by
  have hfirst := iterate_dir st p dir_context.start rfl hdir
  refine ⟨by rw [hfirst], fun ctx hpos => ?_, fun hn => ?_⟩
  · rw [iterate_dir st p ctx hpos hdir, hfirst]
    simp [dir_context.start]
  · have hp : (hollyfs_iterate st p dir_context.start).2.pos ≠ 0 := by
      rw [hfirst]
      simp only [ne_eq]
      omega
    refine ⟨hp, ?_⟩
    unfold hollyfs_iterate
    rw [if_pos (by simpa [hollyfs_iterate] using hp)]

/-- C11 (witness): the root of a fresh volume after the creates `a.txt` and
`b.txt`: a call with the context the first call left emits nothing. -/
theorem iterate_again_witness :
    (read_inode (deref (creates fresh_volume root_dir [a_txt, b_txt]) root_dir)).type
      = HOLLYFS_FILE_TYPE_DIR ∧
    (read_inode (deref (creates fresh_volume root_dir [a_txt, b_txt]) root_dir)).dir_child_count
      ≠ 0 ∧
    hollyfs_iterate (creates fresh_volume root_dir [a_txt, b_txt]) root_dir
        (hollyfs_iterate (creates fresh_volume root_dir [a_txt, b_txt]) root_dir
          dir_context.start).2
      = (0, (hollyfs_iterate (creates fresh_volume root_dir [a_txt, b_txt]) root_dir
          dir_context.start).2) ∧
    dir_context.start.pos = 0 ∧
    (hollyfs_iterate (creates fresh_volume root_dir [a_txt, b_txt]) root_dir
        dir_context.start).2.emitted
      = dir_context.start.emitted ++
        (hollyfs_iterate (creates fresh_volume root_dir [a_txt, b_txt]) root_dir
          dir_context.start).2.emitted :=
  ⟨by decide, by decide,
    ((iterate_again (creates fresh_volume root_dir [a_txt, b_txt]) root_dir
      (by decide)).2.2 (by decide)).2,
    rfl,
    ((iterate_again (creates fresh_volume root_dir [a_txt, b_txt]) root_dir
      (by decide)).2.1 dir_context.start rfl).2⟩

/-- C11 (counterexample): the root holds `a.txt` and `b.txt`; the first
`hollyfs_iterate` emits two entries and leaves `ctx->pos = 520`; the second
invocation, at that position, returns 0 and emits no entry at all, not the
two entries of the first. -/
theorem iterate_second_call_empty :
    (hollyfs_iterate (creates fresh_volume root_dir [a_txt, b_txt]) root_dir
      dir_context.start).2.pos = 520 ∧
    (hollyfs_iterate (creates fresh_volume root_dir [a_txt, b_txt]) root_dir
      dir_context.start).2.emitted.length = 2 ∧
    hollyfs_iterate (creates fresh_volume root_dir [a_txt, b_txt]) root_dir
      { pos := 520, emitted := [] } = (0, { pos := 520, emitted := [] }) := by
  decide

/-- C12 (amended): `hollyfs_create` on the root, with `dir_child_count = n`
below 15 and a name of at most `HOLLYFS_FILENAME_MAX` bytes (the append stays
inside the 4096-byte data block), when the root's data block is none of block
0, block `HOLLYFS_INODE_BLOCK_BASE` (whose buffer holds the root inode) and the
root's inode slot `inode_num + HOLLYFS_INODE_BLOCK_BASE`: after the call,
record `n` of the data block holds the given name (as a C string) and the
number of the new inode, records `0..n-1` are unchanged, the device holds the
same records `0..n` as the buffer, and both the in-memory `dir_child_count`
and the one in the on-disk inode slot are `n + 1`. -/
theorem create_appends_record (st : hollyfs_state) (name : List Byte)
    (hn : (read_inode (deref st root_dir)).dir_child_count < HOLLYFS_BLOCK_SIZE / SIZEOF_RECORD)
    (hlen : (cstr name).length ≤ HOLLYFS_FILENAME_MAX)
    (hd0 : (read_inode (deref st root_dir)).data_block_num ≠ 0)
    (hdb : (read_inode (deref st root_dir)).data_block_num ≠ HOLLYFS_INODE_BLOCK_BASE)
    (hslot : ((read_inode (deref st root_dir)).inode_num + HOLLYFS_INODE_BLOCK_BASE)
      % 4294967296 ≠ (read_inode (deref st root_dir)).data_block_num) :
    cstr (read_record ((hollyfs_create st root_dir name).st.bufs
        (read_inode (deref st root_dir)).data_block_num)
        (read_inode (deref st root_dir)).dir_child_count).filename = cstr name ∧
    (read_record ((hollyfs_create st root_dir name).st.bufs
        (read_inode (deref st root_dir)).data_block_num)
        (read_inode (deref st root_dir)).dir_child_count).inode_no
      = (read_inode ((hollyfs_create st root_dir name).st.objs st.nobjs)).inode_num ∧
    (hollyfs_create st root_dir name).inode.i_private = .object st.nobjs ∧
    (∀ j, j < (read_inode (deref st root_dir)).dir_child_count →
      read_record ((hollyfs_create st root_dir name).st.bufs
        (read_inode (deref st root_dir)).data_block_num) j
      = read_record (st.bufs (read_inode (deref st root_dir)).data_block_num) j) ∧
    (∀ j, j ≤ (read_inode (deref st root_dir)).dir_child_count →
      read_record ((hollyfs_create st root_dir name).st.disk
        (read_inode (deref st root_dir)).data_block_num) j
      = read_record ((hollyfs_create st root_dir name).st.bufs
        (read_inode (deref st root_dir)).data_block_num) j) ∧
    (read_inode (deref (hollyfs_create st root_dir name).st root_dir)).dir_child_count
      = (read_inode (deref st root_dir)).dir_child_count + 1 ∧
    (read_inode ((hollyfs_create st root_dir name).st.disk
        (((read_inode (deref st root_dir)).inode_num + HOLLYFS_INODE_BLOCK_BASE) % 4294967296))
      ).dir_child_count = (read_inode (deref st root_dir)).dir_child_count + 1 := by
  obtain ⟨h1, h2, h3, h4, h5, h6⟩ :=
    append_record_at st 1024 name (by decide) hd0 hdb hslot hn hlen
  exact ⟨h1, h2, rfl, h3, h4, h5, h6⟩

set_option maxRecDepth 1000000 in
/-- C12 (witness): the first create in the root of a fresh volume. -/
theorem create_appends_record_witness :
    ((read_inode (deref fresh_volume root_dir)).dir_child_count
        < HOLLYFS_BLOCK_SIZE / SIZEOF_RECORD ∧
     (cstr a_txt).length ≤ HOLLYFS_FILENAME_MAX ∧
     (read_inode (deref fresh_volume root_dir)).data_block_num ≠ 0 ∧
     (read_inode (deref fresh_volume root_dir)).data_block_num ≠ HOLLYFS_INODE_BLOCK_BASE ∧
     ((read_inode (deref fresh_volume root_dir)).inode_num + HOLLYFS_INODE_BLOCK_BASE)
       % 4294967296 ≠ (read_inode (deref fresh_volume root_dir)).data_block_num) ∧
    cstr (read_record ((hollyfs_create fresh_volume root_dir a_txt).st.bufs
        (read_inode (deref fresh_volume root_dir)).data_block_num)
        (read_inode (deref fresh_volume root_dir)).dir_child_count).filename = cstr a_txt ∧
    (read_inode ((hollyfs_create fresh_volume root_dir a_txt).st.disk
        (((read_inode (deref fresh_volume root_dir)).inode_num + HOLLYFS_INODE_BLOCK_BASE)
          % 4294967296))).dir_child_count
      = (read_inode (deref fresh_volume root_dir)).dir_child_count + 1 :=
  ⟨⟨by decide, by decide, by decide, by decide, by decide⟩,
    (create_appends_record fresh_volume a_txt (by decide) (by decide) (by decide)
      (by decide) (by decide)).1,
    (create_appends_record fresh_volume a_txt (by decide) (by decide) (by decide)
      (by decide) (by decide)).2.2.2.2.2.2⟩

set_option maxRecDepth 1000000 in
/-- C12 (counterexample): three formatted volumes whose root has one child,
and the create of `a.txt` in the root; each time record 0 of the root's data
block is not what it was (its first 16 bytes are shown).  On the first the
root's data block is block 0, and the stores to `inode_count` and `block_map`
change bytes 8 and 14 of record 0.  On the second the data block is block
`HOLLYFS_INODE_BLOCK_BASE`, and the store to `dir_child_count` changes byte 12.
On the third the root's inode slot `inode_num + HOLLYFS_INODE_BLOCK_BASE` is
its data block 1, and the write-back of the child count changes byte 12. -/
theorem create_changes_earlier_record :
    ((read_inode (deref (attach (patched_root 0 0 1) blank_slab) root_dir)).dir_child_count = 1 ∧
     (read_inode (deref (attach (patched_root 0 0 1) blank_slab) root_dir)).data_block_num = 0 ∧
     (hollyfs_create (attach (patched_root 0 0 1) blank_slab) root_dir a_txt).ret = 0 ∧
     (read_record ((attach (patched_root 0 0 1) blank_slab).bufs 0) 0).filename.take 16
       = [77, 0, 0, 0, 32, 4, 0, 0, 1, 0, 0, 0, 1, 0, 0, 0] ∧
     (read_record ((hollyfs_create (attach (patched_root 0 0 1) blank_slab) root_dir
         a_txt).st.bufs 0) 0).filename.take 16
       = [77, 0, 0, 0, 32, 4, 0, 0, 2, 0, 0, 0, 1, 0, 1, 0]) ∧
    ((read_inode (deref (attach (patched_root 0 1024 1) blank_slab) root_dir)).dir_child_count
       = 1 ∧
     (read_inode (deref (attach (patched_root 0 1024 1) blank_slab) root_dir)).data_block_num
       = HOLLYFS_INODE_BLOCK_BASE ∧
     (hollyfs_create (attach (patched_root 0 1024 1) blank_slab) root_dir a_txt).ret = 0 ∧
     (read_record ((attach (patched_root 0 1024 1) blank_slab).bufs 1024) 0).filename.take 16
       = [0, 0, 0, 0, 0, 4, 0, 0, 0, 0, 0, 0, 1, 0, 0, 0] ∧
     (read_record ((hollyfs_create (attach (patched_root 0 1024 1) blank_slab) root_dir
         a_txt).st.bufs 1024) 0).filename.take 16
       = [0, 0, 0, 0, 0, 4, 0, 0, 0, 0, 0, 0, 2, 0, 0, 0]) ∧
    ((read_inode (deref (attach (patched_root 4294966273 1 1) blank_slab)
       root_dir)).dir_child_count = 1 ∧
     (read_inode (deref (attach (patched_root 4294966273 1 1) blank_slab)
       root_dir)).data_block_num = 1 ∧
     ((read_inode (deref (attach (patched_root 4294966273 1 1) blank_slab) root_dir)).inode_num
       + HOLLYFS_INODE_BLOCK_BASE) % 4294967296 = 1 ∧
     (hollyfs_create (attach (patched_root 4294966273 1 1) blank_slab) root_dir a_txt).ret = 0 ∧
     (read_record ((attach (patched_root 4294966273 1 1) blank_slab).bufs 1) 0).filename.take 16
       = [0, 0, 0, 0, 0, 0, 0, 0, 0, 0, 0, 0, 0, 0, 0, 0] ∧
     (read_record ((hollyfs_create (attach (patched_root 4294966273 1 1) blank_slab) root_dir
         a_txt).st.bufs 1) 0).filename.take 16
       = [0, 0, 0, 0, 0, 0, 0, 0, 0, 0, 0, 0, 2, 0, 0, 0]) := by
  decide

set_option maxRecDepth 1000000 in
/-- C13 (the code at the failing input): the root holds 15 records, as many
as fit in its 4096-byte data block; the 16th `hollyfs_create` returns 0, stores
the name at byte 3900 inside the block (and flushes it) and the `inode_no` 17 at
byte 4156, past the end of the block, and the listing grows from 15 to 16
entries. -/
theorem create_in_full_directory :
    (read_inode ((creates fresh_volume root_dir fifteen_names).bufs 1024)).dir_child_count
      = HOLLYFS_BLOCK_SIZE / SIZEOF_RECORD ∧
    (hollyfs_create (creates fresh_volume root_dir fifteen_names) root_dir b_txt).ret = 0 ∧
    ((creates fresh_volume root_dir fifteen_names).bufs 1 3900 = 0 ∧
     (hollyfs_create (creates fresh_volume root_dir fifteen_names) root_dir b_txt).st.bufs 1 3900
       = 98 ∧
     (hollyfs_create (creates fresh_volume root_dir fifteen_names) root_dir b_txt).st.disk 1 3900
       = 98) ∧
    ((creates fresh_volume root_dir fifteen_names).bufs 1 4156 = 0 ∧
     (hollyfs_create (creates fresh_volume root_dir fifteen_names) root_dir b_txt).st.bufs 1 4156
       = 17) ∧
    (read_inode ((hollyfs_create (creates fresh_volume root_dir fifteen_names) root_dir
      b_txt).st.disk 1024)).dir_child_count = 16 ∧
    (dir_listing (creates fresh_volume root_dir fifteen_names) root_dir).length = 15 ∧
    dir_listing (hollyfs_create (creates fresh_volume root_dir fifteen_names) root_dir b_txt).st
        root_dir
      = dir_listing (creates fresh_volume root_dir fifteen_names) root_dir ++ [(b_txt, 17)] := by
  decide

set_option maxRecDepth 1000000 in
/-- C14 (the code at the failing input): `hollyfs_create` returns 0 on every
input; with a name of 300 bytes in the root of a fresh volume, `strcpy` stores
name bytes over the record's `inode_no` field (bytes 256 to 259, which line
147 then sets to the inode number 2) and over bytes 260 to 299, the start of
the following record, and the block is flushed to the device like that; the
listing shows a name of 255 bytes. -/
theorem create_name_too_long :
    (∀ st dir name, (hollyfs_create st dir name).ret = 0) ∧
    (cstr name_300).length = 300 ∧
    (hollyfs_create fresh_volume root_dir name_300).ret = 0 ∧
    (strcpy (fresh_volume.bufs 1) 0 name_300 256 = 98 ∧
     strcpy (fresh_volume.bufs 1) 0 name_300 259 = 98) ∧
    (read_record ((hollyfs_create fresh_volume root_dir name_300).st.bufs 1) 0).inode_no = 2 ∧
    (fresh_volume.bufs 1 260 = 0 ∧ fresh_volume.bufs 1 299 = 0) ∧
    ((hollyfs_create fresh_volume root_dir name_300).st.bufs 1 260 = 98 ∧
     (hollyfs_create fresh_volume root_dir name_300).st.bufs 1 299 = 98) ∧
    ((hollyfs_create fresh_volume root_dir name_300).st.disk 1 260 = 98 ∧
     (hollyfs_create fresh_volume root_dir name_300).st.disk 1 299 = 98) ∧
    dir_listing (hollyfs_create fresh_volume root_dir name_300).st root_dir
      = [(List.replicate 255 98, 2)] := by
  refine ⟨fun _ _ _ => rfl, ?_⟩
  decide

set_option maxRecDepth 1000000 in
/-- C15 (the code at the failing input): on a formatted volume whose
`block_map` has no 0 entry the create of `a.txt` in the root returns 0 and
gives the new inode `data_block_num = 1024`; block 1024 is also the root's
inode slot, the create flushes blocks 1 and 1024, and byte 12 of block 1024
on the device goes from 0 to 1: the new inode's data block is written.  (On
a fresh volume the new inode has number 2 and data block 2, and the create
flushes blocks 1 and 1024.) -/
theorem create_writes_new_data_block :
    (∀ i, i < HOLLYFS_DATA_BLOCK_COUNT → sb_block_map (full_volume.bufs 0) i ≠ 0) ∧
    (hollyfs_create full_volume root_dir a_txt).ret = 0 ∧
    (hollyfs_create full_volume root_dir a_txt).inode.i_private = .object 0 ∧
    (read_inode ((hollyfs_create full_volume root_dir a_txt).st.objs 0)).data_block_num
      = HOLLYFS_INODE_BLOCK_BASE ∧
    ((read_inode (deref full_volume root_dir)).inode_num + HOLLYFS_INODE_BLOCK_BASE)
      % 4294967296 = HOLLYFS_INODE_BLOCK_BASE ∧
    (hollyfs_create full_volume root_dir a_txt).st.flushed = [1, 1024] ∧
    full_volume.disk 1024 12 = 0 ∧
    (hollyfs_create full_volume root_dir a_txt).st.disk 1024 12 = 1 ∧
    ((read_inode ((hollyfs_create fresh_volume root_dir a_txt).st.objs 0)).data_block_num = 2 ∧
     (read_inode ((hollyfs_create fresh_volume root_dir a_txt).st.objs 0)).inode_num = 2 ∧
     (hollyfs_create fresh_volume root_dir a_txt).st.flushed = [1, 1024]) := by
  refine ⟨full_volume_block_map, ?_⟩
  decide

/-- C16: on a freshly formatted volume, after any run of at most 15 creates
in the root (whatever the names), attaching the resulting device image anew
and running `hollyfs_fill_sb` on it succeeds and binds the root to the buffer
of block `HOLLYFS_INODE_BLOCK_BASE` with the host inode number
`HOLLYFS_INODE_BLOCK_BASE`, and `hollyfs_iterate` on the new root returns and
emits exactly what it did before the remount, one entry per create.  The root
record on the device has `inode_num = 0`, so the slot
`inode_num + HOLLYFS_INODE_BLOCK_BASE` that create writes back is the block
mount reads. -/
theorem listing_survives_remount (dev : Device) (sb_mem root_mem : Region)
    (slab slab2 : Nat → Region) (sb : super_block) (names : List (List Byte))
    (hk : names.length ≤ HOLLYFS_BLOCK_SIZE / SIZEOF_RECORD) :
    (hollyfs_fill_sb
      (attach (creates (attach (mkfs_main dev sb_mem root_mem) slab) root_dir names).disk slab2)
      sb true).ret = 0 ∧
    (hollyfs_fill_sb
      (attach (creates (attach (mkfs_main dev sb_mem root_mem) slab) root_dir names).disk slab2)
      sb true).sb.s_root
      = some { i_ino := HOLLYFS_INODE_BLOCK_BASE, i_private := root_dir,
               i_op := true, i_fop := true } ∧
    hollyfs_iterate
      (attach (creates (attach (mkfs_main dev sb_mem root_mem) slab) root_dir names).disk slab2)
      root_dir dir_context.start
      = hollyfs_iterate (creates (attach (mkfs_main dev sb_mem root_mem) slab) root_dir names)
          root_dir dir_context.start ∧
    (hollyfs_iterate (creates (attach (mkfs_main dev sb_mem root_mem) slab) root_dir names)
      root_dir dir_context.start).2.emitted.length = names.length ∧
    (read_inode ((creates (attach (mkfs_main dev sb_mem root_mem) slab) root_dir names).disk
      HOLLYFS_INODE_BLOCK_BASE)).inode_num = 0 ∧
    ((read_inode ((creates (attach (mkfs_main dev sb_mem root_mem) slab) root_dir names).bufs
      HOLLYFS_INODE_BLOCK_BASE)).inode_num + HOLLYFS_INODE_BLOCK_BASE) % 4294967296
      = HOLLYFS_INODE_BLOCK_BASE := by
  obtain ⟨h0, h4, h12, h16, h8⟩ := fresh_root dev sb_mem root_mem slab
  have hk2 : names.length ≤ 15 := hk
  simp only [root_dir, HOLLYFS_INODE_BLOCK_BASE, read_inode]
  obtain ⟨r0, r4, r16, r12, _⟩ := root_run_inode names _ h0 h4
  obtain ⟨s1, s2, s0⟩ := root_run_disk names _ h0 h4 (fun _ _ => rfl) (fun _ _ => rfl)
  rw [h12, Nat.zero_add, Nat.mod_eq_of_lt (by omega)] at r12
  rw [h16] at r16
  have e0 : rd32 ((creates (attach (mkfs_main dev sb_mem root_mem) slab)
      (hfs_ptr.buffer 1024) names).disk 1024) 0 = 0 := by
    rw [rd32_congr (fun j hj => s2 (0 + j) (by omega)), r0]
  have e4 : rd32 ((creates (attach (mkfs_main dev sb_mem root_mem) slab)
      (hfs_ptr.buffer 1024) names).disk 1024) 4 = 1 := by
    rw [rd32_congr (fun j hj => s2 (4 + j) (by omega)), r4]
  have e12 : rd32 ((creates (attach (mkfs_main dev sb_mem root_mem) slab)
      (hfs_ptr.buffer 1024) names).disk 1024) 12 = names.length := by
    rw [rd32_congr (fun j hj => s2 (12 + j) (by omega)), r12]
  have e16 : rd32 ((creates (attach (mkfs_main dev sb_mem root_mem) slab)
      (hfs_ptr.buffer 1024) names).disk 1024) 16 = 1 := by
    rw [rd32_congr (fun j hj => s2 (16 + j) (by omega)), r16]
  have hmagic : sb_magic_num ((creates (attach (mkfs_main dev sb_mem root_mem) slab)
      (hfs_ptr.buffer 1024) names).disk 0) = 77 := by
    rw [s0]
    exact (mkfs_superblock dev sb_mem root_mem).1
  have hfill : hollyfs_fill_sb (attach (creates (attach (mkfs_main dev sb_mem root_mem) slab)
      (hfs_ptr.buffer 1024) names).disk slab2) sb true =
      { ret := 0,
        sb := { s_maxbytes := HOLLYFS_BLOCK_SIZE, s_op := true, s_fs_info := some (.buffer 0),
                s_root := some { i_ino := 1024, i_private := .buffer 1024,
                                 i_op := true, i_fop := true } },
        breads := [0, 1024], new_inodes := 1 } := by
    unfold hollyfs_fill_sb
    rw [attach_bufs, if_neg (by rw [hmagic]; decide)]
    rfl
  have hbefore := iterate_dir (creates (attach (mkfs_main dev sb_mem root_mem) slab)
    (hfs_ptr.buffer 1024) names) (hfs_ptr.buffer 1024) dir_context.start rfl
    (by simp only [read_inode, deref]; rw [r16])
  have hafter := iterate_dir (attach (creates (attach (mkfs_main dev sb_mem root_mem) slab)
    (hfs_ptr.buffer 1024) names).disk slab2) (hfs_ptr.buffer 1024) dir_context.start rfl
    (by simp only [read_inode, deref]; rw [attach_bufs, e16])
  simp only [read_inode, deref] at hbefore hafter
  rw [attach_bufs, e12, e4] at hafter
  rw [r12, r4] at hbefore
  have hrec : (List.range names.length).map (fun k =>
      ({ name := (read_record ((creates (attach (mkfs_main dev sb_mem root_mem) slab)
            (hfs_ptr.buffer 1024) names).disk 1) k).filename
         ino := (read_record ((creates (attach (mkfs_main dev sb_mem root_mem) slab)
            (hfs_ptr.buffer 1024) names).disk 1) k).inode_no } : dirent))
      = (List.range names.length).map (fun k =>
      ({ name := (read_record ((creates (attach (mkfs_main dev sb_mem root_mem) slab)
            (hfs_ptr.buffer 1024) names).bufs 1) k).filename
         ino := (read_record ((creates (attach (mkfs_main dev sb_mem root_mem) slab)
            (hfs_ptr.buffer 1024) names).bufs 1) k).inode_no } : dirent)) := by
    apply List.map_congr_left
    intro k hk3
    have hk4 : k < names.length := by simpa using hk3
    rw [read_record_congr _ _ k (fun o ho => s1 o (by omega))]
  rw [hfill]
  refine ⟨rfl, rfl, ?_, ?_, e0, by rw [r0]⟩
  · rw [hafter, hbefore, hrec]
  · rw [hbefore]
    simp [dir_context.start]

/-- C16 (witness): the creates `a.txt` and `b.txt` on a zeroed, formatted
device, listed after a remount and before it. -/
theorem listing_survives_remount_witness :
    [a_txt, b_txt].length ≤ HOLLYFS_BLOCK_SIZE / SIZEOF_RECORD ∧
    hollyfs_iterate
      (attach (creates (attach (mkfs_main blank_device (fun _ => 0) (fun _ => 0)) blank_slab)
        root_dir [a_txt, b_txt]).disk blank_slab)
      root_dir dir_context.start
      = hollyfs_iterate (creates (attach (mkfs_main blank_device (fun _ => 0) (fun _ => 0))
          blank_slab) root_dir [a_txt, b_txt]) root_dir dir_context.start :=
  ⟨by decide,
    (listing_survives_remount blank_device (fun _ => 0) (fun _ => 0) blank_slab blank_slab
      super_block.blank [a_txt, b_txt] (by decide)).2.2.1⟩

end HollyFS
